import Mathlib

/-!
Shallow embedding of the temporal reconciliation engine of plan.cards
(backend/app/utils/period_utils.py, backend/app/services/card_service.py,
backend/app/services/template_sync.py, backend/app/routers/events.py),
with theorems settling the frozen claims about it.

Dates are modelled as (year, month, day) triples of naturals with Python's
`datetime.date` lexicographic order, and `dateutil.relativedelta` month
arithmetic (add months to the (year, month) index, clamp the day to the
length of the target month) is modelled by `Date.addMonths`.
-/

/-- Proleptic Gregorian calendar date, as Python's `datetime.date`:
a (year, month, day) triple compared lexicographically. -/
structure Date where
  year : Nat
  month : Nat
  day : Nat
deriving DecidableEq, Repr

namespace Date

/-- Python `date` ordering: lexicographic on (year, month, day). -/
def le (a b : Date) : Prop :=
  a.year < b.year ∨ (a.year = b.year ∧
    (a.month < b.month ∨ (a.month = b.month ∧ a.day ≤ b.day)))

/-- Strict version of the Python `date` ordering. -/
def lt (a b : Date) : Prop :=
  a.year < b.year ∨ (a.year = b.year ∧
    (a.month < b.month ∨ (a.month = b.month ∧ a.day < b.day)))

instance : LE Date := ⟨Date.le⟩
instance : LT Date := ⟨Date.lt⟩

instance decLe (a b : Date) : Decidable (a ≤ b) :=
  inferInstanceAs (Decidable (_ ∨ _))

instance decLt (a b : Date) : Decidable (a < b) :=
  inferInstanceAs (Decidable (_ ∨ _))

/-- Gregorian leap-year test, as Python's `calendar.isleap`. -/
def isLeap (y : Nat) : Bool :=
  y % 4 == 0 && (y % 100 != 0 || y % 400 == 0)

/-- Number of days in a month of the Gregorian calendar. -/
def daysInMonth (y m : Nat) : Nat :=
  if m = 2 then (if isLeap y then 29 else 28)
  else if m = 4 ∨ m = 6 ∨ m = 9 ∨ m = 11 then 30
  else 31

/-- A structurally valid `datetime.date`: month in 1..12, day in range for
the month, positive year. -/
def Valid (d : Date) : Prop :=
  1 ≤ d.year ∧ 1 ≤ d.month ∧ d.month ≤ 12 ∧ 1 ≤ d.day ∧ d.day ≤ daysInMonth d.year d.month

instance decValid (d : Date) : Decidable d.Valid :=
  inferInstanceAs (Decidable (_ ∧ _))

/-- Number of months from the calendar origin to this date's month:
`year * 12 + month`.  Adding k months advances this index by exactly k. -/
def monthIndex (d : Date) : Nat := d.year * 12 + d.month

/-- `dateutil.relativedelta(months=k)` addition: advance the (year, month)
index by `k` and clamp the day-of-month to the target month's length. -/
def addMonths (d : Date) (k : Nat) : Date :=
  let total := d.year * 12 + (d.month - 1) + k
  let y := total / 12
  let m := total % 12 + 1
  { year := y, month := m, day := min d.day (daysInMonth y m) }

/-- `dateutil.relativedelta(days=1)` subtraction: step one day back,
rolling into the previous month (or December 31 of the previous year). -/
def subOneDay (d : Date) : Date :=
  if 2 ≤ d.day then { d with day := d.day - 1 }
  else if 2 ≤ d.month then
    { year := d.year, month := d.month - 1, day := daysInMonth d.year (d.month - 1) }
  else
    { year := d.year - 1, month := 12, day := 31 }

/-- One day forward, rolling into the next month or year. -/
def addOneDay (d : Date) : Date :=
  if d.day < daysInMonth d.year d.month then { d with day := d.day + 1 }
  else if d.month < 12 then { year := d.year, month := d.month + 1, day := 1 }
  else { year := d.year + 1, month := 1, day := 1 }

/-- `n` repeated `addMonths k` steps from `d` — the successive cursor
values of the cardiversary walk and of the annual fee-event walks. -/
def iterAddMonths (k : Nat) (d : Date) : Nat → Date
  | 0 => d
  | n + 1 => (iterAddMonths k d n).addMonths k

end Date

/-! ## backend/app/utils/period_utils.py -/

/-- `_FREQUENCY_DELTA` of period_utils.py as a month count; the `.get`
default (used by `_cardiversary_period` for unknown frequencies) is one
year, i.e. 12 months. -/
def frequencyDeltaMonths (frequency : String) : Nat :=
  if frequency = "monthly" then 1
  else if frequency = "quarterly" then 3
  else if frequency = "semi_annual" then 6
  else 12

/-- `_calendar_period` of period_utils.py: calendar-aligned window for the
reference date. -/
def calendarPeriod (frequency : String) (ref : Date) : Date × Date :=
  if frequency = "monthly" then
    let start : Date := { ref with day := 1 }
    (start, (start.addMonths 1).subOneDay)
  else if frequency = "quarterly" then
    let quarterMonth := ((ref.month - 1) / 3) * 3 + 1
    let start : Date := { year := ref.year, month := quarterMonth, day := 1 }
    (start, (start.addMonths 3).subOneDay)
  else if frequency = "semi_annual" then
    let halfMonth := if ref.month ≤ 6 then 1 else 7
    let start : Date := { year := ref.year, month := halfMonth, day := 1 }
    (start, (start.addMonths 6).subOneDay)
  else
    ({ year := ref.year, month := 1, day := 1 }, { year := ref.year, month := 12, day := 31 })

/-- The `while True` walk of `_cardiversary_period`, with explicit fuel.
With sufficient fuel (as supplied by `cardiversaryPeriod`) the zero-fuel
base case coincides with the loop's exit branch, so the fuel never changes
the result on valid inputs. -/
def cardiversaryGo (k : Nat) (ref : Date) : Nat → Date → Date × Date
  | 0, cursor => (cursor, (cursor.addMonths k).subOneDay)
  | fuel + 1, cursor =>
      let next := cursor.addMonths k
      if next ≤ ref then cardiversaryGo k ref fuel next
      else (cursor, next.subOneDay)

/-- `_cardiversary_period` of period_utils.py: walk forward from
`openDate` in frequency-sized steps until the next step would pass `ref`;
the window is `[cursor, next_cursor - 1 day]`. -/
def cardiversaryPeriod (frequency : String) (openDate ref : Date) : Date × Date :=
  cardiversaryGo (frequencyDeltaMonths frequency) ref
    (ref.monthIndex + 1 - openDate.monthIndex) openDate

/-- `get_current_period` of period_utils.py (with the reference date made
an explicit argument; the Python default is today's date).  Cardiversary
alignment is used only when `reset_type == "cardiversary"` and an anchor
(`open_date`) is truthy; otherwise the calendar window is returned. -/
def get_current_period (frequency resetType : String) (openDate : Option Date)
    (ref : Date) : Date × Date :=
  match openDate with
  | some od => if resetType = "cardiversary" then cardiversaryPeriod frequency od ref
               else calendarPeriod frequency ref
  | none => calendarPeriod frequency ref

/-! ## Fee timeline (backend/app/services/card_service.py)

`_build_fee_timeline` parses the template catalog's YAML version history
(an external collaborator) into a year-to-fee dict; the dict itself is
modelled as an association list with distinct keys, and the lookup
`_get_fee_for_year` is embedded below. -/

/-- A year-to-annual-fee mapping, as produced by `_build_fee_timeline`:
an association list standing for a Python dict (keys distinct). -/
abbrev Timeline := List (Nat × Int)

/-- Python `max` over a nonempty list of naturals (0 for the empty list,
which the source never passes). -/
def listMax : List Nat → Nat
  | [] => 0
  | h :: t => t.foldl max h

/-- Python `min` over a nonempty list of naturals (0 for the empty list,
which the source never passes). -/
def listMin : List Nat → Nat
  | [] => 0
  | h :: t => t.foldl min h

/-- Dict subscript `timeline[y]`: the value of the first (with distinct
keys, the only) binding of `y`. -/
def dictGet (tl : Timeline) (y : Nat) : Option Int :=
  match tl with
  | [] => none
  | (k, v) :: rest => if k = y then some v else dictGet rest y

/-- `_get_fee_for_year` of card_service.py: the fee of the latest timeline
year at most `year`, falling back to the earliest known year's fee
(pre-history assumption); `none` only for an empty timeline. -/
def get_fee_for_year (timeline : Timeline) (year : Nat) : Option Int :=
  if timeline = [] then none
  else if (timeline.map Prod.fst).filter (fun y => y ≤ year) = [] then
    dictGet timeline (listMin (timeline.map Prod.fst))
  else
    dictGet timeline (listMax ((timeline.map Prod.fst).filter (fun y => y ≤ year)))

/-! ## Cards and fee-posting events (backend/app/models, card_service.py) -/

/-- The keys of `CardEvent.metadata_json` that the engine reads for
annual-fee events: the posted amount and the engine-owned approximate
flag. -/
structure EventMeta where
  annual_fee : Option Int := none
  approximate_date : Bool := false
deriving DecidableEq, Repr

/-- A `CardEvent` row restricted to the fields the scheduler reads. -/
structure CardEvent where
  id : Nat := 0
  event_type : String
  event_date : Date
  metadata_json : Option EventMeta := none
deriving DecidableEq, Repr

/-- The source's `evt.metadata_json and evt.metadata_json.get("approximate_date")`
truthiness test. -/
def CardEvent.isApproximate (e : CardEvent) : Bool :=
  match e.metadata_json with
  | some m => m.approximate_date
  | none => false

/-- A `Card` row restricted to the fields the scheduler and reconciler
read and write. -/
structure Card where
  id : Nat := 0
  status : String := "active"
  open_date : Option Date := none
  close_date : Option Date := none
  annual_fee : Option Int := none
  annual_fee_date : Option Date := none
  annual_fee_user_modified : Bool := false
  template_id : Option String := none
  template_version_id : Option String := none
  spend_reminder_enabled : Bool := false
  spend_requirement : Option Int := none
  spend_deadline : Option Date := none
deriving DecidableEq, Repr

/-- Python truthiness of `card.annual_fee and card.annual_fee > 0`. -/
def feePositive (f : Option Int) : Bool :=
  match f with
  | some v => decide (0 < v)
  | none => false

/-- Python truthiness of an optional integer field (`None` and `0` falsy). -/
def truthyInt (f : Option Int) : Bool :=
  match f with
  | some v => decide (v ≠ 0)
  | none => false

/-- An engine-generated `annual_fee_posted` event, with metadata
`annual_fee = fee` and `approximate_date = True`. -/
def afEvent (d : Date) (fee : Int) : CardEvent :=
  { event_type := "annual_fee_posted", event_date := d,
    metadata_json := some { annual_fee := some fee, approximate_date := true } }

/-- Fee resolution inside the anniversary walks: timeline lookup when a
timeline exists, the card's flat fee otherwise or when the lookup yields
`None`. -/
def resolveWalkFee (timeline : Timeline) (flatFee : Int) (year : Nat) : Int :=
  (if timeline = [] then some flatFee else get_fee_for_year timeline year).getD flatFee

/-- The `while anniversary <= today` walk shared by `create_card`,
`update_card`'s backfill and `_recalculate_af_events_after_change`: emit an
approximate fee event for each anniversary up to today, stepping one year
(12 months) at a time, and return the first anniversary past today.  Fuel
is explicit; `generatePastAFEvents` supplies enough that the zero-fuel
base case coincides with the loop's exit branch on valid inputs. -/
def afWalk (timeline : Timeline) (flatFee : Int) (today : Date) :
    Nat → Date → List CardEvent × Date
  | 0, ann => ([], ann)
  | fuel + 1, ann =>
      if ann ≤ today then
        let rest := afWalk timeline flatFee today fuel (ann.addMonths 12)
        (afEvent ann (resolveWalkFee timeline flatFee ann.year) :: rest.1, rest.2)
      else ([], ann)

/-- The anniversary walk from `start` with sufficient fuel. -/
def generatePastAFEvents (timeline : Timeline) (flatFee : Int) (today start : Date) :
    List CardEvent × Date :=
  afWalk timeline flatFee today (today.year + 1 - start.year) start

/-! ## Card lifecycle operations (backend/app/services/card_service.py)

The SQLAlchemy session is modelled by explicit state passing: each
operation maps the card row and its event rows to their post-commit
values, or to an error for the source's raised `ValueError`s.  The
template catalog (an external collaborator read through
`get_template` / `get_template_versions`) enters as the `timeline`
argument, the result of `_build_fee_timeline` for the card's template;
`get_today` enters as the `today` argument.  Fields with no bearing on
fee-event or date state (names, images, notes, bonus rows) are omitted. -/

/-- `CardCreate` payload restricted to the modelled fields. -/
structure CardCreate where
  status : String := "active"
  open_date : Option Date := none
  close_date : Option Date := none
  annual_fee : Option Int := none
  annual_fee_date : Option Date := none
  template_id : Option String := none
deriving DecidableEq, Repr

/-- `create_card` of card_service.py: build the card row, force
`annual_fee_date` to null when the fee is null or 0, record an `opened`
event when an open date is given, and auto-generate past annual-fee
events (plus the next due date) when the card has an open date and a
positive fee. -/
def create_card (timeline : Timeline) (today : Date) (data : CardCreate) :
    Card × List CardEvent :=
  let card0 : Card :=
    { status := data.status, open_date := data.open_date, close_date := data.close_date,
      annual_fee := data.annual_fee, annual_fee_date := data.annual_fee_date,
      template_id := data.template_id }
  let card1 := if card0.annual_fee = none ∨ card0.annual_fee = some 0 then
    { card0 with annual_fee_date := none } else card0
  let events0 : List CardEvent := match data.open_date with
    | some od => [{ event_type := "opened", event_date := od }]
    | none => []
  match data.open_date, data.annual_fee with
  | some od, some fee =>
      if 0 < fee then
        let walkTimeline := if data.template_id = none then [] else timeline
        let walk := generatePastAFEvents walkTimeline fee today od
        let card2 := if data.annual_fee_date = none then
          { card1 with annual_fee_date := some walk.2 } else card1
        (card2, events0 ++ walk.1)
      else (card1, events0)
  | _, _ => (card1, events0)

/-- `CardUpdate` payload: an outer `none` means the field is absent from
the request (pydantic `exclude_unset`), `some v` means it is set to `v`. -/
structure CardUpdate where
  open_date : Option (Option Date) := none
  close_date : Option (Option Date) := none
  annual_fee : Option (Option Int) := none
  annual_fee_date : Option (Option Date) := none
  spend_reminder_enabled : Option Bool := none
  spend_requirement : Option (Option Int) := none
  spend_deadline : Option (Option Date) := none
deriving DecidableEq, Repr

/-- The `setattr` loop of `update_card`: overwrite exactly the fields
present in the payload. -/
def applyUpdate (card : Card) (u : CardUpdate) : Card :=
  { card with
    open_date := u.open_date.getD card.open_date,
    close_date := u.close_date.getD card.close_date,
    annual_fee := u.annual_fee.getD card.annual_fee,
    annual_fee_date := u.annual_fee_date.getD card.annual_fee_date,
    spend_reminder_enabled := u.spend_reminder_enabled.getD card.spend_reminder_enabled,
    spend_requirement := u.spend_requirement.getD card.spend_requirement,
    spend_deadline := u.spend_deadline.getD card.spend_deadline }

/-- The auto-clear of `update_card`: null the due date when the payload
sets the fee to null or 0. -/
def applyFeeClear (u : CardUpdate) (c1 : Card) : Card :=
  if u.annual_fee.isSome ∧ (c1.annual_fee = none ∨ c1.annual_fee = some 0) then
    { c1 with annual_fee_date := none } else c1

/-- The manual-override flag of `update_card`: set
`annual_fee_user_modified` when the payload includes `annual_fee`. -/
def applyFeeModifiedFlag (u : CardUpdate) (c2 : Card) : Card :=
  if u.annual_fee.isSome then { c2 with annual_fee_user_modified := true } else c2

/-- The backfill tail of `update_card`: when the open date was just set
on a card with a positive fee and no fee events yet, generate past
annual-fee events and (when unset) the next due date. -/
def backfillAfEvents (timeline : Timeline) (today : Date) (oldOpen : Option Date)
    (c3 : Card) (events : List CardEvent) : Card × List CardEvent :=
  match oldOpen, c3.open_date with
  | none, some od =>
      if feePositive c3.annual_fee ∧
          ¬ events.any (fun e => e.event_type == "annual_fee_posted") then
        let walkTimeline := if c3.template_id = none then [] else timeline
        let walk := generatePastAFEvents walkTimeline (c3.annual_fee.getD 0) today od
        (if c3.annual_fee_date = none then
          { c3 with annual_fee_date := some walk.2 } else c3, events ++ walk.1)
      else (c3, events)
  | _, _ => (c3, events)

/-- `update_card` of card_service.py: apply the payload, auto-clear
`annual_fee_date` when the payload sets the fee to null or 0, mark the
manual-override flag, validate the spend-reminder cross-field dependency,
and backfill annual-fee events when the open date was just set on a card
with a positive fee and no fee events yet. -/
def update_card (timeline : Timeline) (today : Date) (card : Card)
    (events : List CardEvent) (u : CardUpdate) : Except String (Card × List CardEvent) :=
  let c3 := applyFeeModifiedFlag u (applyFeeClear u (applyUpdate card u))
  if c3.spend_reminder_enabled ∧ ¬(truthyInt c3.spend_requirement ∧ c3.spend_deadline.isSome) then
    Except.error "spend_reminder_enabled requires both spend_requirement and spend_deadline"
  else
    Except.ok (backfillAfEvents timeline today card.open_date c3 events)

/-- Truthiness of `card.open_date and date < card.open_date`. -/
def dateBeforeOpen (card : Card) (d : Date) : Bool :=
  match card.open_date with
  | some od => decide (d < od)
  | none => false

/-- `close_card` of card_service.py: reject closing a closed card or a
close date before the open date; otherwise set status, close date, clear
`annual_fee_date` and the spend-reminder fields, and record a `closed`
event.  (No event rows are deleted.) -/
def close_card (card : Card) (events : List CardEvent) (closeDate : Date) :
    Except String (Card × List CardEvent) :=
  if card.status = "closed" then Except.error "Card is already closed"
  else if dateBeforeOpen card closeDate then
    Except.error "close_date cannot be before open_date"
  else
    Except.ok
      ({ card with
          status := "closed", close_date := some closeDate,
          annual_fee_date := none, spend_reminder_enabled := false, spend_deadline := none },
       events ++ [{ event_type := "closed", event_date := closeDate }])

/-- The `product_change` event row (its metadata carries only
template/name bookkeeping, none of the annual-fee keys). -/
def pcEvent (d : Date) : CardEvent :=
  { event_type := "product_change", event_date := d,
    metadata_json := some { annual_fee := none, approximate_date := false } }

/-- `_recalculate_af_events_after_change` of card_service.py: delete every
approximate `annual_fee_posted` event dated strictly after `changeDate`;
then either clear `annual_fee_date` (fee null or ≤ 0) or regenerate
approximate events annually from `changeDate + 1 year` through today and
set `annual_fee_date` to the first anniversary past today. -/
def recalculateAfEventsAfterChange (timeline : Timeline) (today : Date)
    (card : Card) (events : List CardEvent) (changeDate : Date) :
    Card × List CardEvent :=
  let kept := events.filter (fun e =>
    ¬ (e.event_type = "annual_fee_posted" ∧ changeDate < e.event_date ∧ e.isApproximate))
  if ¬ feePositive card.annual_fee then
    ({ card with annual_fee_date := none }, kept)
  else
    let walkTimeline := if card.template_id = none then [] else timeline
    let walk := generatePastAFEvents walkTimeline (card.annual_fee.getD 0) today
      (changeDate.addMonths 12)
    ({ card with annual_fee_date := some walk.2 }, kept ++ walk.1)

/-- `product_change` of card_service.py, restricted to the card/event
state (benefit sync and upgrade-bonus rows omitted; `resolvedVersion` is
`get_template(new_template_id).version_id` from the external catalog,
`timeline` the new template's fee timeline).  Validations, the
`product_change` event, the approximate fee event at the change date for
a positive fee, and the recalculation are embedded as in the source. -/
def product_change (timeline : Timeline) (today : Date) (card : Card)
    (events : List CardEvent) (newTemplateId : Option String)
    (resolvedVersion : Option String) (changeDate : Date)
    (newAnnualFee : Option Int) (resetAfAnniversary : Bool) :
    Except String (Card × List CardEvent) :=
  if card.status = "closed" then Except.error "Cannot product-change a closed card"
  else if newTemplateId.isSome ∧ newTemplateId = card.template_id then
    Except.error "Card already has this template"
  else if dateBeforeOpen card changeDate then
    Except.error "change_date cannot be before open_date"
  else
    let c1 := { card with
        template_id := newTemplateId,
        annual_fee_user_modified := false,
        template_version_id := match newTemplateId with
          | some _ => (match resolvedVersion with
              | some v => some v
              | none => card.template_version_id)
          | none => none }
    let c2 := match newAnnualFee with
      | some f => { c1 with annual_fee := some f }
      | none => c1
    let evs1 := events ++ [pcEvent changeDate]
    if resetAfAnniversary then
      let evs2 := if feePositive c2.annual_fee then
        evs1 ++ [afEvent changeDate (c2.annual_fee.getD 0)] else evs1
      Except.ok (recalculateAfEventsAfterChange timeline today c2 evs2 changeDate)
    else
      Except.ok (c2, evs1)

/-! ## Event CRUD (backend/app/routers/events.py)

The router's `create_event` and `delete_event` handlers, restricted to
the card/event/bonus state they touch.  Bonus rows enter only through
their `event_id` link, which is all `delete_event` reads. -/

/-- `CardEventCreate` payload. -/
structure CardEventCreate where
  event_type : String
  event_date : Date
  metadata_json : Option EventMeta := none
deriving DecidableEq, Repr

/-- `create_event` of routers/events.py: append the new event row.  The
card row is not read or written (beyond the ownership check). -/
def create_event (card : Card) (events : List CardEvent) (nextId : Nat)
    (data : CardEventCreate) : Card × List CardEvent :=
  (card, events ++ [{ id := nextId, event_type := data.event_type, event_date := data.event_date, metadata_json := data.metadata_json }])

/-- `delete_event` of routers/events.py: delete the event row (404 when
absent) and cascade-delete bonuses linked to it.  The card row is not
read or written (beyond the ownership check). -/
def delete_event (card : Card) (events : List CardEvent) (bonusLinks : List Nat)
    (eventId : Nat) : Except String (Card × List CardEvent × List Nat) :=
  match events.find? (fun e => e.id == eventId) with
  | none => Except.error "Event not found"
  | some _ =>
      Except.ok (card, events.filter (fun e => e.id ≠ eventId),
        bonusLinks.filter (fun b => b ≠ eventId))

/-! ## Template reconciler (backend/app/services/template_sync.py)

The template snapshot (external catalog) and the card's benefit and
bonus-category rows.  Python dicts keyed by name are modelled by their
semantics: the binding for a key is the LAST element with that key, and
iteration order is first occurrence of each key. -/

/-- A credit entry of a template snapshot. -/
structure TemplateCredit where
  name : String
  amount : Int
  frequency : String
  reset_type : String
deriving DecidableEq, Repr

/-- A spend-threshold entry of a template snapshot. -/
structure TemplateThreshold where
  name : String
  spend_required : Int
  frequency : String
  reset_type : String
  description : Option String := none
deriving DecidableEq, Repr

/-- A bonus-category entry of a template snapshot. -/
structure TemplateBonusCategory where
  category : String
  multiplier : String
  portal_only : Bool := false
  cap : Option Int := none
deriving DecidableEq, Repr

/-- The `benefits` block of a template snapshot. -/
structure TemplateBenefits where
  credits : List TemplateCredit := []
  spend_thresholds : List TemplateThreshold := []
  bonus_categories : List TemplateBonusCategory := []
deriving DecidableEq, Repr

/-- A template snapshot as returned by `get_template`. -/
structure Template where
  version_id : Option String := none
  annual_fee : Option Int := none
  benefits : Option TemplateBenefits := none
deriving DecidableEq, Repr

/-- `template.benefits and template.benefits.credits` (empty list falsy). -/
def Template.creditList (t : Template) : List TemplateCredit :=
  match t.benefits with
  | some b => b.credits
  | none => []

/-- `template.benefits and template.benefits.spend_thresholds`. -/
def Template.thresholdList (t : Template) : List TemplateThreshold :=
  match t.benefits with
  | some b => b.spend_thresholds
  | none => []

/-- `template.benefits and template.benefits.bonus_categories`. -/
def Template.catList (t : Template) : List TemplateBonusCategory :=
  match t.benefits with
  | some b => b.bonus_categories
  | none => []

/-- A `CardBenefit` row. -/
structure CardBenefit where
  id : Nat := 0
  benefit_name : String
  benefit_amount : Int
  frequency : String
  reset_type : String := "calendar"
  from_template : Bool := false
  retired : Bool := false
  amount_used : Int := 0
  notes : Option String := none
  benefit_type : String := "credit"
  period_start : Option Date := none
deriving DecidableEq, Repr

/-- A `CardBonusCategory` row. -/
structure CardBonusCategory where
  id : Nat := 0
  category : String
  multiplier : String
  portal_only : Bool := false
  cap : Option Int := none
  from_template : Bool := false
deriving DecidableEq, Repr

/-- The binding a Python dict comprehension keyed by `key` holds for `n`:
the last element with that key. -/
def findLast (key : α → String) (l : List α) (n : String) : Option α :=
  l.reverse.find? (fun x => key x == n)

/-- Iteration order of a Python dict built from these keys: first
occurrence of each key. -/
def pyDictNames (names : List String) : List String :=
  names.foldl (fun acc n => if n ∈ acc then acc else acc ++ [n]) []

/-- Membership of a benefit in the `credit_benefits` dict of `_sync_card`:
`from_template` and of credit type. -/
def isCreditKeyBenefit (b : CardBenefit) : Bool :=
  b.from_template && b.benefit_type == "credit"

/-- Membership of a benefit in the `threshold_benefits` dict. -/
def isThresholdKeyBenefit (b : CardBenefit) : Bool :=
  b.from_template && b.benefit_type == "spend_threshold"

/-- Whether `b` is the element its dict key resolves to: no later element
(in `rest`) enters the same dict under the same name. -/
def isLastKey (p : CardBenefit → Bool) (b : CardBenefit) (rest : List CardBenefit) : Bool :=
  rest.all (fun x => !(p x && x.benefit_name == b.benefit_name))

/-- The matched-credit update of `_sync_card`: align amount, frequency and
reset type with the template entry and un-retire.  (The source assigns
each field only on mismatch; the resulting row is the same.) -/
def applyCreditSync (c : TemplateCredit) (b : CardBenefit) : CardBenefit :=
  { b with
      benefit_amount := c.amount, frequency := c.frequency,
      reset_type := c.reset_type, retired := false }

/-- The matched-threshold update of `_sync_card`. -/
def applyThresholdSync (t : TemplateThreshold) (b : CardBenefit) : CardBenefit :=
  { b with
      benefit_amount := t.spend_required, frequency := t.frequency,
      reset_type := t.reset_type, retired := false }

/-- One pass of `_sync_card` over the stored benefit rows for one benefit
type: each row the dict indexes is updated in place when its name matches
a template entry and retired otherwise; all other rows are untouched.
Returns the new rows plus the `benefits_updated` and `benefits_retired`
counter deltas. -/
def benefitPass (p : CardBenefit → Bool)
    (lookup : String → Option (CardBenefit → CardBenefit)) :
    List CardBenefit → List CardBenefit × Nat × Nat
  | [] => ([], 0, 0)
  | b :: rest =>
      let r := benefitPass p lookup rest
      if p b && isLastKey p b rest then
        match lookup b.benefit_name with
        | some apply =>
            let b' := apply b
            (b' :: r.1, (if b' = b then r.2.1 else r.2.1 + 1), r.2.2)
        | none =>
            ({ b with retired := true } :: r.1, r.2.1,
             (if b.retired then r.2.2 else r.2.2 + 1))
      else (b :: r.1, r.2)

/-- A benefit row freshly created from a template credit (`amount_used`
0, `period_start` from the Cycle Clock anchored at the card's open date,
referenced at today). -/
def newCreditBenefit (openDate : Option Date) (today : Date) (c : TemplateCredit) :
    CardBenefit :=
  { benefit_name := c.name, benefit_amount := c.amount, frequency := c.frequency,
    reset_type := c.reset_type, from_template := true, amount_used := 0,
    period_start := some (get_current_period c.frequency c.reset_type openDate today).1 }

/-- A benefit row freshly created from a template spend-threshold. -/
def newThresholdBenefit (openDate : Option Date) (today : Date) (t : TemplateThreshold) :
    CardBenefit :=
  { benefit_name := t.name, benefit_amount := t.spend_required, frequency := t.frequency,
    reset_type := t.reset_type, benefit_type := "spend_threshold", from_template := true,
    amount_used := 0, notes := t.description,
    period_start := some (get_current_period t.frequency t.reset_type openDate today).1 }

/-- The rows `_sync_card` creates for template entries with no existing
match, in template dict iteration order. -/
def newBenefitRows (keyOf : α → String) (mk : α → CardBenefit) (p : CardBenefit → Bool)
    (tmplEntries : List α) (benefits : List CardBenefit) : List CardBenefit :=
  (pyDictNames (tmplEntries.map keyOf)).filterMap (fun n =>
    if benefits.any (fun b => p b && b.benefit_name == n) then none
    else (findLast keyOf tmplEntries n).map mk)

/-- The bonus-category pass of `_sync_card` over the stored rows: each
`from_template` row the dict indexes is updated in place when its
category is still in the template and HARD-DELETED otherwise; all other
rows are untouched.  Returns the surviving rows and the
`bonus_categories_removed` delta. -/
def catPass (tCats : List TemplateBonusCategory) :
    List CardBonusCategory → List CardBonusCategory × Nat
  | [] => ([], 0)
  | c :: rest =>
      let r := catPass tCats rest
      if c.from_template && rest.all (fun x => !(x.from_template && x.category == c.category)) then
        match findLast (fun t => t.category) tCats c.category with
        | some t =>
            ({ c with
                multiplier := t.multiplier, portal_only := t.portal_only,
                cap := t.cap } :: r.1, r.2)
        | none => (r.1, r.2 + 1)
      else (c :: r.1, r.2)

/-- The bonus-category rows `_sync_card` creates for template categories
with no existing `from_template` row. -/
def newCatRows (tCats : List TemplateBonusCategory) (cats : List CardBonusCategory) :
    List CardBonusCategory :=
  (pyDictNames (tCats.map (fun t => t.category))).filterMap (fun n =>
    if cats.any (fun c => c.from_template && c.category == n) then none
    else (findLast (fun t => t.category) tCats n).map (fun t =>
      { category := t.category, multiplier := t.multiplier,
        portal_only := t.portal_only, cap := t.cap, from_template := true }))

/-- Per-card counter deltas, mirroring the summary dict of
`sync_cards_to_templates`. -/
structure SyncSummary where
  cards_synced : Nat := 0
  cards_initialized : Nat := 0
  cards_skipped : Nat := 0
  benefits_added : Nat := 0
  benefits_updated : Nat := 0
  benefits_retired : Nat := 0
  bonus_categories_added : Nat := 0
  bonus_categories_removed : Nat := 0
deriving DecidableEq, Repr

/-- Pointwise addition of summary counters. -/
def SyncSummary.add (a b : SyncSummary) : SyncSummary :=
  { cards_synced := a.cards_synced + b.cards_synced,
    cards_initialized := a.cards_initialized + b.cards_initialized,
    cards_skipped := a.cards_skipped + b.cards_skipped,
    benefits_added := a.benefits_added + b.benefits_added,
    benefits_updated := a.benefits_updated + b.benefits_updated,
    benefits_retired := a.benefits_retired + b.benefits_retired,
    bonus_categories_added := a.bonus_categories_added + b.bonus_categories_added,
    bonus_categories_removed := a.bonus_categories_removed + b.bonus_categories_removed }

/-- `_sync_card` of template_sync.py (steady-state sync of one card):
update the flat annual fee unless user-modified; reconcile credits and
spend-thresholds by name (update / create / retire); fully reconcile
bonus categories including hard delete; stamp the new version id. -/
def sync_card (today : Date) (card : Card) (benefits : List CardBenefit)
    (cats : List CardBonusCategory) (template : Template) :
    Card × List CardBenefit × List CardBonusCategory × SyncSummary :=
  let card1 := if template.annual_fee.isSome ∧ ¬ card.annual_fee_user_modified then
    { card with annual_fee := template.annual_fee } else card
  let tCredits := template.creditList
  let tThresholds := template.thresholdList
  let tCats := template.catList
  let creditLookup := fun n => (findLast (fun c => c.name) tCredits n).map applyCreditSync
  let thresholdLookup := fun n =>
    (findLast (fun t => t.name) tThresholds n).map applyThresholdSync
  let cr := benefitPass isCreditKeyBenefit creditLookup benefits
  let th := benefitPass isThresholdKeyBenefit thresholdLookup cr.1
  let newCr := newBenefitRows (fun c => c.name) (newCreditBenefit card.open_date today)
    isCreditKeyBenefit tCredits benefits
  let newTh := newBenefitRows (fun t => t.name) (newThresholdBenefit card.open_date today)
    isThresholdKeyBenefit tThresholds benefits
  let ct := catPass tCats cats
  let newCt := newCatRows tCats cats
  let card2 := { card1 with template_version_id := template.version_id }
  (card2, th.1 ++ newCr ++ newTh, ct.1 ++ newCt,
   { cards_synced := 1,
     benefits_added := newCr.length + newTh.length,
     benefits_updated := cr.2.1 + th.2.1,
     benefits_retired := cr.2.2 + th.2.2,
     bonus_categories_added := newCt.length,
     bonus_categories_removed := ct.2 })

/-- `_initialize_card` of template_sync.py (first contact): stamp the
current version id and tag existing benefits/categories whose names match
template entries as `from_template`. -/
def initialize_card (card : Card) (benefits : List CardBenefit)
    (cats : List CardBonusCategory) (template : Template) :
    Card × List CardBenefit × List CardBonusCategory × SyncSummary :=
  let names : List String := template.creditList.map (fun c => c.name) ++
    template.thresholdList.map (fun t => t.name)
  let catNames : List String := template.catList.map (fun t => t.category)
  ({ card with template_version_id := template.version_id },
   benefits.map (fun b => if b.benefit_name ∈ names then { b with from_template := true } else b),
   cats.map (fun c => if c.category ∈ catNames then { c with from_template := true } else c),
   { cards_initialized := 1 })

/-- Python truthiness of an optional version-id string (`None` and `""`
falsy). -/
def versionFalsy (v : Option String) : Bool :=
  match v with
  | some s => s == ""
  | none => true

/-- The loop body sequence of `sync_cards_to_templates`.  Reconciling a
card runs through the external session, so the per-card actions are
fallible (`Except`); the loop carries no handler, hence an error
propagates, abandoning the rest of the batch and the final commit, which
is modelled by the monadic bind of `Except`. -/
def syncBatchGo (getTemplate : String → Option Template)
    (initCard : Card → Template → Except String SyncSummary)
    (syncOne : Card → Template → Except String SyncSummary) :
    List Card → SyncSummary → Except String SyncSummary
  | [], s => Except.ok s
  | c :: rest, s =>
      match c.template_id with
      | none =>
          syncBatchGo getTemplate initCard syncOne rest
            (s.add { cards_skipped := 1 })
      | some tid =>
          match getTemplate tid with
          | none =>
              syncBatchGo getTemplate initCard syncOne rest
                (s.add { cards_skipped := 1 })
          | some t =>
              if versionFalsy t.version_id then
                syncBatchGo getTemplate initCard syncOne rest
                  (s.add { cards_skipped := 1 })
              else if versionFalsy c.template_version_id then
                match initCard c t with
                | Except.error e => Except.error e
                | Except.ok d =>
                    syncBatchGo getTemplate initCard syncOne rest (s.add d)
              else if c.template_version_id = t.version_id then
                syncBatchGo getTemplate initCard syncOne rest
                  (s.add { cards_skipped := 1 })
              else
                match syncOne c t with
                | Except.error e => Except.error e
                | Except.ok d =>
                    syncBatchGo getTemplate initCard syncOne rest (s.add d)

/-- `sync_cards_to_templates` of template_sync.py: iterate all active
templated cards (the query filter), dispatching each to skip /
initialize / sync; the summary is returned (the commit) only when no
card's reconciliation failed, since the loop catches nothing. -/
def sync_cards_to_templates (getTemplate : String → Option Template)
    (initCard : Card → Template → Except String SyncSummary)
    (syncOne : Card → Template → Except String SyncSummary)
    (cards : List Card) : Except String SyncSummary :=
  syncBatchGo getTemplate initCard syncOne
    (cards.filter (fun c => c.template_id.isSome && c.status == "active")) {}

/-! ## Concrete fixtures

Concrete cards, events and templates used to evaluate the operations at
specific inputs (mirroring scenarios from the repository's test suite). -/

/-- A card opened 2021-02-03 with a 150 annual fee, as in the test
suite's close-card scenario. -/
def closeFixtureCard : Card :=
  { id := 1, status := "active", open_date := some ⟨2021, 2, 3⟩,
    annual_fee := some 150, annual_fee_date := some ⟨2024, 2, 3⟩ }

/-- The event rows of `closeFixtureCard` before closing: the `opened`
event and approximate annual-fee events at the 2021–2026 anniversaries. -/
def closeFixtureEvents : List CardEvent :=
  [{ id := 1, event_type := "opened", event_date := ⟨2021, 2, 3⟩ },
   { afEvent ⟨2021, 2, 3⟩ 150 with id := 2 },
   { afEvent ⟨2022, 2, 3⟩ 150 with id := 3 },
   { afEvent ⟨2023, 2, 3⟩ 150 with id := 4 },
   { afEvent ⟨2024, 2, 3⟩ 150 with id := 5 },
   { afEvent ⟨2025, 2, 3⟩ 150 with id := 6 },
   { afEvent ⟨2026, 2, 3⟩ 150 with id := 7 }]

/-- A template snapshot at version v2 whose benefit lists are all empty. -/
def emptyBenefitTemplate : Template :=
  { version_id := some "v2", annual_fee := some 95, benefits := some {} }

/-- A `from_template` credit benefit named X (row id 1). -/
def dupBenefitOne : CardBenefit :=
  { id := 1, benefit_name := "X", benefit_amount := 100, frequency := "monthly",
    reset_type := "calendar", from_template := true, benefit_type := "credit" }

/-- A second `from_template` credit benefit also named X (row id 2). -/
def dupBenefitTwo : CardBenefit :=
  { id := 2, benefit_name := "X", benefit_amount := 100, frequency := "monthly",
    reset_type := "calendar", from_template := true, benefit_type := "credit" }

/-- A templated card pending a steady-state sync (stored version v1). -/
def syncFixtureCard : Card :=
  { id := 3, status := "active", template_id := some "t",
    template_version_id := some "v1" }

/-- A second templated card pending the same sync (row id 4). -/
def syncFixtureCardTwo : Card :=
  { id := 4, status := "active", template_id := some "t",
    template_version_id := some "v1" }

/-- A catalog resolving every template id to `emptyBenefitTemplate`. -/
def fixtureCatalog : String → Option Template := fun _ => some emptyBenefitTemplate

/-- A per-card initialize action that always succeeds with an
`initialized` count of one. -/
def fixtureInitCard : Card → Template → Except String SyncSummary :=
  fun _ _ => Except.ok { cards_initialized := 1 }

/-- A per-card sync action whose session fails on card row 3 (as a
database error during reconciliation would) and succeeds elsewhere. -/
def fixtureSyncFailingOnThree : Card → Template → Except String SyncSummary :=
  fun c _ => if c.id = 3 then Except.error "db failure" else Except.ok { cards_synced := 1 }

/-! ## Date arithmetic lemmas -/

theorem Date.le_def {a b : Date} : a ≤ b ↔
    (a.year < b.year ∨ (a.year = b.year ∧
      (a.month < b.month ∨ (a.month = b.month ∧ a.day ≤ b.day)))) := Iff.rfl

theorem Date.lt_def {a b : Date} : a < b ↔
    (a.year < b.year ∨ (a.year = b.year ∧
      (a.month < b.month ∨ (a.month = b.month ∧ a.day < b.day)))) := Iff.rfl

theorem Date.le_refl (a : Date) : a ≤ a := by
  rw [Date.le_def]; omega

theorem Date.le_trans {a b c : Date} (h1 : a ≤ b) (h2 : b ≤ c) : a ≤ c := by
  rw [Date.le_def] at *; omega

theorem Date.lt_of_not_le {a b : Date} (h : ¬ a ≤ b) : b < a := by
  rw [Date.le_def] at h; rw [Date.lt_def]; omega

theorem Date.le_of_lt {a b : Date} (h : a < b) : a ≤ b := by
  rw [Date.lt_def] at h; rw [Date.le_def]; omega

theorem Date.ne_of_lt {a b : Date} (h : a < b) : b ≠ a := by
  intro he; rw [Date.lt_def] at h
  cases he
  omega

theorem Date.daysInMonth_pos (y m : Nat) : 1 ≤ Date.daysInMonth y m := by
  unfold Date.daysInMonth
  split
  · split <;> omega
  · split <;> omega

theorem Date.daysInMonth_le_31 (y m : Nat) : Date.daysInMonth y m ≤ 31 := by
  unfold Date.daysInMonth
  split
  · split <;> omega
  · split <;> omega

theorem Date.daysInMonth_12 (y : Nat) : Date.daysInMonth y 12 = 31 := by
  unfold Date.daysInMonth
  norm_num

theorem Date.monthIndex_addMonths (d : Date) (k : Nat) (h : 1 ≤ d.month) :
    (d.addMonths k).monthIndex = d.monthIndex + k := by
  simp only [Date.addMonths, Date.monthIndex]
  omega

theorem Date.valid_addMonths {d : Date} (h : d.Valid) (k : Nat) : (d.addMonths k).Valid := by
  obtain ⟨hy, hm1, hm2, hd1, hd2⟩ := h
  have hp := Date.daysInMonth_pos ((d.year * 12 + (d.month - 1) + k) / 12)
    ((d.year * 12 + (d.month - 1) + k) % 12 + 1)
  simp only [Date.addMonths, Date.Valid]
  omega

theorem Date.mi_le_of_le {a b : Date} (ha : a.Valid) (hb : b.Valid) (h : a ≤ b) :
    a.monthIndex ≤ b.monthIndex := by
  obtain ⟨_, _, _, _, _⟩ := ha
  obtain ⟨_, _, _, _, _⟩ := hb
  rw [Date.le_def] at h
  unfold Date.monthIndex
  omega

theorem Date.lt_of_mi_lt {a b : Date} (ha : a.Valid) (hb : b.Valid)
    (h : a.monthIndex < b.monthIndex) : a < b := by
  obtain ⟨_, _, _, _, _⟩ := ha
  obtain ⟨_, _, _, _, _⟩ := hb
  unfold Date.monthIndex at h
  rw [Date.lt_def]
  omega

theorem Date.lt_addMonths {d : Date} (hd : d.Valid) {k : Nat} (hk : 1 ≤ k) :
    d < d.addMonths k :=
  Date.lt_of_mi_lt hd (Date.valid_addMonths hd k)
    (by rw [Date.monthIndex_addMonths d k hd.2.1]; omega)

theorem Date.le_subOneDay_of_lt {a b : Date} (ha : a.Valid) (hb : b.Valid) (h : a < b) :
    a ≤ b.subOneDay := by
  obtain ⟨hay, ham1, ham2, had1, had2⟩ := ha
  obtain ⟨hby, hbm1, hbm2, hbd1, hbd2⟩ := hb
  rw [Date.lt_def] at h
  unfold Date.subOneDay
  split
  · rw [Date.le_def]
    dsimp only
    omega
  · split
    · rw [Date.le_def]
      dsimp only
      rcases h with h | ⟨hy, h⟩
      · omega
      · rcases h with hm | ⟨hm, hd⟩
        · by_cases hcase : a.month = b.month - 1
          · refine Or.inr ⟨hy, Or.inr ⟨hcase, ?_⟩⟩
            rw [← hy, ← hcase]
            exact had2
          · exact Or.inr ⟨hy, Or.inl (by omega)⟩
        · omega
    · rw [Date.le_def]
      dsimp only
      have hd31 : a.day ≤ 31 := Nat.le_trans had2 (Date.daysInMonth_le_31 _ _)
      omega

theorem Date.addOneDay_subOneDay {d : Date} (h : d.Valid) : d.subOneDay.addOneDay = d := by
  rcases d with ⟨dy, dm, dd⟩
  unfold Date.Valid at h
  dsimp only at h
  obtain ⟨hy, hm1, hm2, hd1, hd2⟩ := h
  by_cases h1 : 2 ≤ dd
  · have hsub : Date.subOneDay ⟨dy, dm, dd⟩ = ⟨dy, dm, dd - 1⟩ := by
      unfold Date.subOneDay
      dsimp only
      rw [if_pos h1]
    rw [hsub]
    unfold Date.addOneDay
    dsimp only
    rw [if_pos (show dd - 1 < Date.daysInMonth dy dm by omega)]
    simp only [Date.mk.injEq, true_and, and_true]
    omega
  · by_cases h2 : 2 ≤ dm
    · have hsub : Date.subOneDay ⟨dy, dm, dd⟩ = ⟨dy, dm - 1, Date.daysInMonth dy (dm - 1)⟩ := by
        unfold Date.subOneDay
        dsimp only
        rw [if_neg h1, if_pos h2]
      rw [hsub]
      unfold Date.addOneDay
      dsimp only
      rw [if_neg (Nat.lt_irrefl _), if_pos (show dm - 1 < 12 by omega)]
      simp only [Date.mk.injEq, true_and, and_true]
      omega
    · have hsub : Date.subOneDay ⟨dy, dm, dd⟩ = ⟨dy - 1, 12, 31⟩ := by
        unfold Date.subOneDay
        dsimp only
        rw [if_neg h1, if_neg h2]
      rw [hsub]
      unfold Date.addOneDay
      dsimp only
      rw [Date.daysInMonth_12]
      rw [if_neg (Nat.lt_irrefl 31), if_neg (show ¬ (12:Nat) < 12 by omega)]
      simp only [Date.mk.injEq, true_and, and_true]
      omega

theorem Date.valid_iter {d : Date} (h : d.Valid) (k n : Nat) :
    (Date.iterAddMonths k d n).Valid := by
  induction n with
  | zero => exact h
  | succ n ih => exact Date.valid_addMonths ih k

theorem Date.mi_iter {d : Date} (h : d.Valid) (k n : Nat) :
    (Date.iterAddMonths k d n).monthIndex = d.monthIndex + n * k := by
  induction n with
  | zero => simp [Date.iterAddMonths]
  | succ n ih =>
      rw [Date.iterAddMonths, Date.monthIndex_addMonths _ _ (Date.valid_iter h k n).2.1, ih]
      ring

theorem Date.iter_shift (k : Nat) (d : Date) (n : Nat) :
    Date.iterAddMonths k (d.addMonths k) n = Date.iterAddMonths k d (n + 1) := by
  induction n with
  | zero => rfl
  | succ n ih => rw [Date.iterAddMonths, ih]; rfl

theorem Date.iter_lt_iter {d : Date} (h : d.Valid) {k : Nat} (hk : 1 ≤ k) {i j : Nat}
    (hij : i < j) : Date.iterAddMonths k d i < Date.iterAddMonths k d j := by
  refine Date.lt_of_mi_lt (Date.valid_iter h k i) (Date.valid_iter h k j) ?_
  rw [Date.mi_iter h, Date.mi_iter h]
  have h1 : (i + 1) * k ≤ j * k := Nat.mul_le_mul_right k (by omega)
  have h2 : (i + 1) * k = i * k + k := by ring
  omega

theorem Date.iter_le_iter {d : Date} (h : d.Valid) {k : Nat} (hk : 1 ≤ k) {i j : Nat}
    (hij : i ≤ j) : Date.iterAddMonths k d i ≤ Date.iterAddMonths k d j := by
  rcases Nat.eq_or_lt_of_le hij with he | hlt
  · rw [he]; exact Date.le_refl _
  · exact Date.le_of_lt (Date.iter_lt_iter h hk hlt)

/-! ## Cycle Clock lemmas -/

theorem one_le_frequencyDeltaMonths (f : String) : 1 ≤ frequencyDeltaMonths f := by
  unfold frequencyDeltaMonths
  split_ifs <;> omega

/-- The cardiversary walk with sufficient fuel stops at the unique cursor
whose window contains the reference date, and that cursor is an iterate
of the starting cursor. -/
theorem cardiversaryGo_spec {k : Nat} (hk : 1 ≤ k) {ref : Date} (href : ref.Valid) :
    ∀ (fuel : Nat) (cursor : Date), cursor.Valid → cursor ≤ ref →
      ref.monthIndex < cursor.monthIndex + fuel →
      ∃ n, cardiversaryGo k ref fuel cursor =
          (Date.iterAddMonths k cursor n,
           ((Date.iterAddMonths k cursor n).addMonths k).subOneDay) ∧
        Date.iterAddMonths k cursor n ≤ ref ∧
        ¬ ((Date.iterAddMonths k cursor n).addMonths k ≤ ref) := by
  intro fuel
  induction fuel with
  | zero =>
      intro cursor hc hle hmi
      exact absurd (Date.mi_le_of_le hc href hle) (by omega)
  | succ fuel ih =>
      intro cursor hc hle hmi
      by_cases hnext : cursor.addMonths k ≤ ref
      · have hcv := Date.valid_addMonths hc k
        have hmi2 : ref.monthIndex < (cursor.addMonths k).monthIndex + fuel := by
          rw [Date.monthIndex_addMonths _ _ hc.2.1]
          omega
        obtain ⟨n, heq, h1, h2⟩ := ih (cursor.addMonths k) hcv hnext hmi2
        rw [Date.iter_shift] at heq h1 h2
        refine ⟨n + 1, ?_, h1, h2⟩
        rw [cardiversaryGo]
        simp only [if_pos hnext]
        exact heq
      · refine ⟨0, ?_, hle, hnext⟩
        rw [cardiversaryGo]
        simp only [if_neg hnext]
        rfl

/-- `_cardiversary_period` characterized: the window is
`[iterate n, iterate (n+1) - 1 day]` for the unique `n` whose window
contains the reference date. -/
theorem cardiversaryPeriod_spec (freq : String) {anchor ref : Date}
    (ha : anchor.Valid) (hr : ref.Valid) (hle : anchor ≤ ref) :
    ∃ n, cardiversaryPeriod freq anchor ref =
        (Date.iterAddMonths (frequencyDeltaMonths freq) anchor n,
         ((Date.iterAddMonths (frequencyDeltaMonths freq) anchor n).addMonths
            (frequencyDeltaMonths freq)).subOneDay) ∧
      Date.iterAddMonths (frequencyDeltaMonths freq) anchor n ≤ ref ∧
      ¬ ((Date.iterAddMonths (frequencyDeltaMonths freq) anchor n).addMonths
          (frequencyDeltaMonths freq) ≤ ref) := by
  have hmi := Date.mi_le_of_le ha hr hle
  exact cardiversaryGo_spec (one_le_frequencyDeltaMonths freq) hr
    (ref.monthIndex + 1 - anchor.monthIndex) anchor ha hle (by omega)

/-- Window containment for the cardiversary walk, for anchors not after
the reference date. -/
theorem cardiversaryPeriod_contains (freq : String) {anchor ref : Date}
    (ha : anchor.Valid) (hr : ref.Valid) (hle : anchor ≤ ref) :
    (cardiversaryPeriod freq anchor ref).1 ≤ ref ∧
      ref ≤ (cardiversaryPeriod freq anchor ref).2 := by
  obtain ⟨n, heq, h1, h2⟩ := cardiversaryPeriod_spec freq ha hr hle
  rw [heq]
  refine ⟨h1, ?_⟩
  exact Date.le_subOneDay_of_lt hr
    (Date.valid_addMonths (Date.valid_iter ha _ n) _) (Date.lt_of_not_le h2)

/-- Adding `k` months to the first of month `m` and stepping one day back
lands on the last day of month `m + k - 1` (or December 31 when the span
reaches past December). -/
theorem Date.firstOfMonth_addMonths_subOneDay (y m k : Nat) (hm1 : 1 ≤ m) (hk : 1 ≤ k)
    (h13 : m + k ≤ 13) :
    ((⟨y, m, 1⟩ : Date).addMonths k).subOneDay =
      if m + k ≤ 12 then ⟨y, m + k - 1, Date.daysInMonth y (m + k - 1)⟩
      else ⟨y, 12, 31⟩ := by
  by_cases hc : m + k ≤ 12
  · rw [if_pos hc]
    have hadd : (⟨y, m, 1⟩ : Date).addMonths k = ⟨y, m + k, 1⟩ := by
      unfold Date.addMonths
      dsimp only
      simp only [Date.mk.injEq]
      refine ⟨by omega, by omega, ?_⟩
      have := Date.daysInMonth_pos ((y * 12 + (m - 1) + k) / 12)
        ((y * 12 + (m - 1) + k) % 12 + 1)
      omega
    rw [hadd]
    unfold Date.subOneDay
    dsimp only
    rw [if_neg (by omega), if_pos (by omega)]
  · rw [if_neg hc]
    have hadd : (⟨y, m, 1⟩ : Date).addMonths k = ⟨y + 1, 1, 1⟩ := by
      unfold Date.addMonths
      dsimp only
      simp only [Date.mk.injEq]
      refine ⟨by omega, by omega, ?_⟩
      have := Date.daysInMonth_pos ((y * 12 + (m - 1) + k) / 12)
        ((y * 12 + (m - 1) + k) % 12 + 1)
      omega
    rw [hadd]
    unfold Date.subOneDay
    dsimp only
    rw [if_neg (by omega), if_neg (by omega)]
    simp only [Date.mk.injEq, and_true, true_and]
    omega

/-- A valid date is at most the last day of any month of its year not
before its own month. -/
theorem Date.le_monthEnd {ry rm rd : Nat} (h : (⟨ry, rm, rd⟩ : Date).Valid) {em : Nat}
    (hm : rm ≤ em) : (⟨ry, rm, rd⟩ : Date) ≤ ⟨ry, em, Date.daysInMonth ry em⟩ := by
  unfold Date.Valid at h
  dsimp only at h
  rcases Nat.eq_or_lt_of_le hm with he | hlt
  · subst he
    rw [Date.le_def]
    dsimp only
    omega
  · rw [Date.le_def]
    dsimp only
    omega

/-- Window containment for calendar alignment: every calendar window of
the four supported frequencies contains its reference date. -/
theorem calendarPeriod_contains (freq : String) {ref : Date} (h : ref.Valid)
    (hf : freq = "monthly" ∨ freq = "quarterly" ∨ freq = "semi_annual" ∨ freq = "annual") :
    (calendarPeriod freq ref).1 ≤ ref ∧ ref ≤ (calendarPeriod freq ref).2 := by
  rcases ref with ⟨ry, rm, rd⟩
  have hv := h
  unfold Date.Valid at h
  dsimp only at h
  obtain ⟨hy, hm1, hm2, hd1, hd2⟩ := h
  have h31 : rd ≤ 31 := Nat.le_trans hd2 (Date.daysInMonth_le_31 ry rm)
  rcases hf with hf | hf | hf | hf <;> subst hf
  · unfold calendarPeriod
    rw [if_pos rfl]
    dsimp only
    rw [Date.firstOfMonth_addMonths_subOneDay ry rm 1 hm1 (by omega) (by omega)]
    constructor
    · rw [Date.le_def]; dsimp only; omega
    · by_cases hc : rm + 1 ≤ 12
      · rw [if_pos hc]
        exact Date.le_monthEnd hv (by omega)
      · rw [if_neg hc]
        rw [Date.le_def]; dsimp only; omega
  · unfold calendarPeriod
    rw [if_neg (by decide), if_pos rfl]
    dsimp only
    rw [Date.firstOfMonth_addMonths_subOneDay ry ((rm - 1) / 3 * 3 + 1) 3 (by omega)
      (by omega) (by omega)]
    constructor
    · rw [Date.le_def]; dsimp only; omega
    · by_cases hc : (rm - 1) / 3 * 3 + 1 + 3 ≤ 12
      · rw [if_pos hc]
        exact Date.le_monthEnd hv (by omega)
      · rw [if_neg hc]
        rw [Date.le_def]; dsimp only; omega
  · unfold calendarPeriod
    rw [if_neg (by decide), if_neg (by decide), if_pos rfl]
    dsimp only
    by_cases hhalf : rm ≤ 6
    · rw [if_pos hhalf]
      rw [Date.firstOfMonth_addMonths_subOneDay ry 1 6 (by omega) (by omega) (by omega)]
      rw [if_pos (by omega)]
      constructor
      · rw [Date.le_def]; dsimp only; omega
      · exact Date.le_monthEnd hv (by omega)
    · rw [if_neg hhalf]
      rw [Date.firstOfMonth_addMonths_subOneDay ry 7 6 (by omega) (by omega) (by omega)]
      rw [if_neg (by omega)]
      constructor
      · rw [Date.le_def]; dsimp only; omega
      · rw [Date.le_def]; dsimp only; omega
  · unfold calendarPeriod
    rw [if_neg (by decide), if_neg (by decide), if_neg (by decide)]
    constructor
    · rw [Date.le_def]; dsimp only; omega
    · rw [Date.le_def]; dsimp only; omega

theorem Date.not_le_of_lt {a b : Date} (h : a < b) : ¬ b ≤ a := by
  rw [Date.lt_def] at h
  rw [Date.le_def]
  omega

/-- C4 (amended): for the four supported frequencies, any reset type, and
any valid reference date, `current_period` returns a window with
`start ≤ reference ≤ end`, provided that when cardiversary alignment is
in effect the anchor is a valid date not after the reference; for an
anchor after the reference the start of the returned window is the
anchor itself, which lies after the reference (see the counterexample). -/
theorem C4_current_period_contains_reference (freq resetType : String)
    (openDate : Option Date) (ref : Date) (href : ref.Valid)
    (hfreq : freq = "monthly" ∨ freq = "quarterly" ∨ freq = "semi_annual" ∨ freq = "annual")
    (hanchor : ∀ od, openDate = some od → od.Valid ∧ od ≤ ref) :
    (get_current_period freq resetType openDate ref).1 ≤ ref ∧
      ref ≤ (get_current_period freq resetType openDate ref).2 := by
  cases openDate with
  | none => exact calendarPeriod_contains freq href hfreq
  | some od =>
      obtain ⟨hv, hle⟩ := hanchor od rfl
      unfold get_current_period
      dsimp only
      by_cases hrt : resetType = "cardiversary"
      · rw [if_pos hrt]
        exact cardiversaryPeriod_contains freq hv href hle
      · rw [if_neg hrt]
        exact calendarPeriod_contains freq href hfreq

/-- C4 witness: the monthly cardiversary window anchored 2024-01-15 for
reference 2025-03-20 contains the reference. -/
theorem C4_current_period_contains_reference_witness :
    (get_current_period "monthly" "cardiversary" (some ⟨2024, 1, 15⟩) ⟨2025, 3, 20⟩).1 ≤
        (⟨2025, 3, 20⟩ : Date) ∧
      (⟨2025, 3, 20⟩ : Date) ≤
        (get_current_period "monthly" "cardiversary" (some ⟨2024, 1, 15⟩) ⟨2025, 3, 20⟩).2 :=
  C4_current_period_contains_reference "monthly" "cardiversary" (some ⟨2024, 1, 15⟩)
    ⟨2025, 3, 20⟩ (by decide) (Or.inl rfl)
    (by intro od h; cases h; exact ⟨by decide, by decide⟩)

/-- C4 counterexample: with a cardiversary anchor (2025-01-01) after the
reference date (2024-01-01), the returned window starts at the anchor, so
`start ≤ reference` fails — the claim does not hold for every anchor
date. -/
theorem C4_counterexample_anchor_after_reference :
    ¬ ((get_current_period "monthly" "cardiversary" (some ⟨2025, 1, 1⟩) ⟨2024, 1, 1⟩).1 ≤
        (⟨2024, 1, 1⟩ : Date)) := by decide

/-- C6 (confirmed): cardiversary windows from the same anchor are
contiguous — one day past the end of the window containing any reference
is the start of the window the walk returns for that next day, for every
frequency string and every valid anchor/reference with anchor ≤
reference. -/
theorem C6_cardiversary_windows_contiguous (freq : String) {anchor ref : Date}
    (ha : anchor.Valid) (hr : ref.Valid) (hle : anchor ≤ ref) :
    (cardiversaryPeriod freq anchor ((cardiversaryPeriod freq anchor ref).2.addOneDay)).1 =
      (cardiversaryPeriod freq anchor ref).2.addOneDay := by
  have hk := one_le_frequencyDeltaMonths freq
  obtain ⟨n, heq, h1, h2⟩ := cardiversaryPeriod_spec freq ha hr hle
  have hnextv : (Date.iterAddMonths (frequencyDeltaMonths freq) anchor (n + 1)).Valid :=
    Date.valid_iter ha _ (n + 1)
  have hround :
      ((Date.iterAddMonths (frequencyDeltaMonths freq) anchor (n + 1)).subOneDay).addOneDay =
        Date.iterAddMonths (frequencyDeltaMonths freq) anchor (n + 1) :=
    Date.addOneDay_subOneDay hnextv
  have he2 : (cardiversaryPeriod freq anchor ref).2 =
      (Date.iterAddMonths (frequencyDeltaMonths freq) anchor (n + 1)).subOneDay := by
    rw [heq]
    rfl
  rw [he2, hround]
  have hanchor_le : anchor ≤ Date.iterAddMonths (frequencyDeltaMonths freq) anchor (n + 1) :=
    Date.iter_le_iter ha hk (Nat.zero_le (n + 1))
  obtain ⟨m, heq', h1', h2'⟩ := cardiversaryPeriod_spec freq ha hnextv hanchor_le
  have hm1 : m ≤ n + 1 := by
    by_contra hgt
    push_neg at hgt
    exact Date.not_le_of_lt (Date.iter_lt_iter ha hk hgt) h1'
  have h2m : ¬ (Date.iterAddMonths (frequencyDeltaMonths freq) anchor (m + 1) ≤
      Date.iterAddMonths (frequencyDeltaMonths freq) anchor (n + 1)) := h2'
  have hm2 : n + 1 ≤ m := by
    by_contra hgt
    push_neg at hgt
    exact h2m (Date.iter_le_iter ha hk (show m + 1 ≤ n + 1 by omega))
  have hm : m = n + 1 := by omega
  subst hm
  rw [heq']

/-- C6 witness: for the annual walk anchored 2023-06-01, the window after
the one containing 2025-08-15 starts the day after that window ends. -/
theorem C6_cardiversary_windows_contiguous_witness :
    (cardiversaryPeriod "annual" ⟨2023, 6, 1⟩
        ((cardiversaryPeriod "annual" ⟨2023, 6, 1⟩ ⟨2025, 8, 15⟩).2.addOneDay)).1 =
      (cardiversaryPeriod "annual" ⟨2023, 6, 1⟩ ⟨2025, 8, 15⟩).2.addOneDay :=
  C6_cardiversary_windows_contiguous "annual" (by decide) (by decide) (by decide)

/-- C10 (confirmed): a cardiversary reset with no anchor date falls back
to the calendar-aligned window (no error), and for the four supported
frequencies that window contains any valid reference date. -/
theorem C10_cardiversary_without_anchor_uses_calendar (freq : String) (ref : Date) :
    get_current_period freq "cardiversary" none ref = calendarPeriod freq ref ∧
      (ref.Valid →
        (freq = "monthly" ∨ freq = "quarterly" ∨ freq = "semi_annual" ∨ freq = "annual") →
        (get_current_period freq "cardiversary" none ref).1 ≤ ref ∧
          ref ≤ (get_current_period freq "cardiversary" none ref).2) := by
  refine ⟨rfl, fun h hf => ?_⟩
  exact calendarPeriod_contains freq h hf

/-- C10 witness: quarterly with no anchor at reference 2025-12-01. -/
theorem C10_cardiversary_without_anchor_uses_calendar_witness :
    get_current_period "quarterly" "cardiversary" none ⟨2025, 12, 1⟩ =
        calendarPeriod "quarterly" ⟨2025, 12, 1⟩ ∧
      (get_current_period "quarterly" "cardiversary" none ⟨2025, 12, 1⟩).1 ≤
          (⟨2025, 12, 1⟩ : Date) ∧
        (⟨2025, 12, 1⟩ : Date) ≤
          (get_current_period "quarterly" "cardiversary" none ⟨2025, 12, 1⟩).2 :=
  ⟨(C10_cardiversary_without_anchor_uses_calendar "quarterly" ⟨2025, 12, 1⟩).1,
   (C10_cardiversary_without_anchor_uses_calendar "quarterly" ⟨2025, 12, 1⟩).2
     (by decide) (Or.inr (Or.inl rfl))⟩

/-! ## Fee Timeline Resolver lemmas -/

theorem foldl_max_le_init (l : List Nat) : ∀ a : Nat, a ≤ l.foldl max a := by
  induction l with
  | nil => intro a; exact Nat.le_refl a
  | cons h t ih =>
      intro a
      exact Nat.le_trans (Nat.le_max_left a h) (ih (max a h))

theorem foldl_max_le (l : List Nat) : ∀ (a : Nat) (x : Nat), x ∈ l → x ≤ l.foldl max a := by
  induction l with
  | nil => intro a x hx; cases hx
  | cons h t ih =>
      intro a x hx
      rcases List.mem_cons.mp hx with he | ht
      · subst he
        exact Nat.le_trans (Nat.le_max_right a x) (foldl_max_le_init t (max a x))
      · exact ih (max a h) x ht

theorem foldl_max_mem (l : List Nat) : ∀ a : Nat, l.foldl max a = a ∨ l.foldl max a ∈ l := by
  induction l with
  | nil => intro a; exact Or.inl rfl
  | cons h t ih =>
      intro a
      rcases ih (max a h) with he | hm
      · rw [List.foldl_cons, he]
        rcases Nat.le_total a h with hle | hle
        · right; rw [Nat.max_eq_right hle]; exact List.mem_cons_self h t
        · left; exact Nat.max_eq_left hle
      · right
        exact List.mem_cons_of_mem h hm

theorem listMax_mem {l : List Nat} (h : l ≠ []) : listMax l ∈ l := by
  cases l with
  | nil => exact absurd rfl h
  | cons a t =>
      show t.foldl max a ∈ a :: t
      rcases foldl_max_mem t a with he | hm
      · rw [he]; exact List.mem_cons_self a t
      · exact List.mem_cons_of_mem a hm

theorem le_listMax {l : List Nat} {x : Nat} (h : x ∈ l) : x ≤ listMax l := by
  cases l with
  | nil => cases h
  | cons a t =>
      show x ≤ t.foldl max a
      rcases List.mem_cons.mp h with he | ht
      · subst he; exact foldl_max_le_init t x
      · exact foldl_max_le t a x ht

theorem foldl_min_le_init (l : List Nat) : ∀ a : Nat, l.foldl min a ≤ a := by
  induction l with
  | nil => intro a; exact Nat.le_refl a
  | cons h t ih =>
      intro a
      exact Nat.le_trans (ih (min a h)) (Nat.min_le_left a h)

theorem foldl_min_le (l : List Nat) : ∀ (a : Nat) (x : Nat), x ∈ l → l.foldl min a ≤ x := by
  induction l with
  | nil => intro a x hx; cases hx
  | cons h t ih =>
      intro a x hx
      rcases List.mem_cons.mp hx with he | ht
      · subst he
        exact Nat.le_trans (foldl_min_le_init t (min a x)) (Nat.min_le_right a x)
      · exact ih (min a h) x ht

theorem foldl_min_mem (l : List Nat) : ∀ a : Nat, l.foldl min a = a ∨ l.foldl min a ∈ l := by
  induction l with
  | nil => intro a; exact Or.inl rfl
  | cons h t ih =>
      intro a
      rcases ih (min a h) with he | hm
      · rw [List.foldl_cons, he]
        rcases Nat.le_total a h with hle | hle
        · left; exact Nat.min_eq_left hle
        · right; rw [Nat.min_eq_right hle]; exact List.mem_cons_self h t
      · right
        exact List.mem_cons_of_mem h hm

theorem listMin_mem {l : List Nat} (h : l ≠ []) : listMin l ∈ l := by
  cases l with
  | nil => exact absurd rfl h
  | cons a t =>
      show t.foldl min a ∈ a :: t
      rcases foldl_min_mem t a with he | hm
      · rw [he]; exact List.mem_cons_self a t
      · exact List.mem_cons_of_mem a hm

theorem listMin_le {l : List Nat} {x : Nat} (h : x ∈ l) : listMin l ≤ x := by
  cases l with
  | nil => cases h
  | cons a t =>
      show t.foldl min a ≤ x
      rcases List.mem_cons.mp h with he | ht
      · subst he; exact foldl_min_le_init t x
      · exact foldl_min_le t a x ht

theorem dictGet_mem {tl : Timeline} {y : Nat} {v : Int} (h : dictGet tl y = some v) :
    (y, v) ∈ tl := by
  induction tl with
  | nil => cases h
  | cons p rest ih =>
      rw [dictGet] at h
      split at h
      · rename_i hk
        cases h
        rcases p with ⟨k, v0⟩
        cases hk
        exact List.mem_cons_self _ _
      · exact List.mem_cons_of_mem _ (ih h)

theorem dictGet_isSome_of_mem_keys {tl : Timeline} {y : Nat} (h : y ∈ tl.map Prod.fst) :
    ∃ v, dictGet tl y = some v := by
  induction tl with
  | nil => cases h
  | cons p rest ih =>
      rcases p with ⟨k, v⟩
      simp only [List.map_cons] at h
      rw [dictGet]
      by_cases hk : k = y
      · exact ⟨v, by rw [if_pos hk]⟩
      · rw [if_neg hk]
        rcases List.mem_cons.mp h with he | ht
        · exact absurd he.symm hk
        · exact ih ht

/-- C5 (confirmed): on a non-empty timeline, `_get_fee_for_year` returns
the fee bound to the largest timeline year at most the anniversary year;
when every timeline year is larger, it returns the fee bound to the
smallest (earliest) timeline year. -/
theorem C5_fee_timeline_lookup (tl : Timeline) (year : Nat) (hne : tl ≠ []) :
    ((∃ k ∈ tl.map Prod.fst, k ≤ year) →
      ∃ p ∈ tl, get_fee_for_year tl year = some p.2 ∧ p.1 ≤ year ∧
        ∀ k ∈ tl.map Prod.fst, k ≤ year → k ≤ p.1) ∧
    ((∀ k ∈ tl.map Prod.fst, year < k) →
      ∃ p ∈ tl, get_fee_for_year tl year = some p.2 ∧
        ∀ k ∈ tl.map Prod.fst, p.1 ≤ k) := by
  constructor
  · rintro ⟨k0, hk0, hk0le⟩
    unfold get_fee_for_year
    rw [if_neg hne]
    have hkapp : k0 ∈ (tl.map Prod.fst).filter (fun y => y ≤ year) :=
      List.mem_filter.mpr ⟨hk0, by simpa using hk0le⟩
    have happne : (tl.map Prod.fst).filter (fun y => y ≤ year) ≠ [] := by
      intro h
      rw [h] at hkapp
      cases hkapp
    rw [if_neg happne]
    have hmax_mem_app := listMax_mem happne
    have hmax_keys : listMax ((tl.map Prod.fst).filter (fun y => y ≤ year)) ∈ tl.map Prod.fst :=
      (List.mem_filter.mp hmax_mem_app).1
    have hmax_le : listMax ((tl.map Prod.fst).filter (fun y => y ≤ year)) ≤ year := by
      have := (List.mem_filter.mp hmax_mem_app).2
      simpa using this
    obtain ⟨v, hv⟩ := dictGet_isSome_of_mem_keys hmax_keys
    refine ⟨(listMax ((tl.map Prod.fst).filter (fun y => y ≤ year)), v),
      dictGet_mem hv, by rw [hv], hmax_le, ?_⟩
    intro k hk hkle
    exact le_listMax (List.mem_filter.mpr ⟨hk, by simpa using hkle⟩)
  · intro hall
    unfold get_fee_for_year
    rw [if_neg hne]
    have happ : (tl.map Prod.fst).filter (fun y => y ≤ year) = [] := by
      rw [List.filter_eq_nil_iff]
      intro a ha
      simpa using Nat.not_le.mpr (hall a ha)
    rw [happ]
    rw [if_pos rfl]
    have hkeysne : tl.map Prod.fst ≠ [] := by
      cases tl with
      | nil => exact absurd rfl hne
      | cons p rest => simp
    have hmink := listMin_mem hkeysne
    obtain ⟨v, hv⟩ := dictGet_isSome_of_mem_keys hmink
    refine ⟨(listMin (tl.map Prod.fst), v), dictGet_mem hv, by rw [hv], ?_⟩
    intro k hk
    exact listMin_le hk

/-- C5 witness: on the timeline 2021 ↦ 695, 2025 ↦ 895 the fee resolved
for 2022 is the one bound to the largest year at most 2022. -/
theorem C5_fee_timeline_lookup_witness :
    ∃ p ∈ [((2021 : Nat), (695 : Int)), (2025, 895)],
      get_fee_for_year [(2021, 695), (2025, 895)] 2022 = some p.2 ∧ p.1 ≤ 2022 ∧
        ∀ k ∈ ([((2021 : Nat), (695 : Int)), (2025, 895)] : Timeline).map Prod.fst,
          k ≤ 2022 → k ≤ p.1 :=
  (C5_fee_timeline_lookup [(2021, 695), (2025, 895)] 2022 (by decide)).1
    ⟨2021, by decide, by decide⟩

/-- C1 (code bug): closing the fixture card on 2024-01-09 leaves all
three approximate annual-fee events dated after the close date in the
card's event set (`close_card` deletes nothing), while it does clear
`annual_fee_date`.  The spec — and the repository's own test
`test_close_card_deletes_approximate_af_events_after_close_date` —
require those events to be deleted. -/
theorem C1_close_card_keeps_future_approximate_events :
    (close_card closeFixtureCard closeFixtureEvents ⟨2024, 1, 9⟩).toOption.map
        (fun p => p.2.filter (fun e =>
          e.event_type == "annual_fee_posted" &&
          decide ((⟨2024, 1, 9⟩ : Date) < e.event_date) && e.isApproximate)) =
      some [{ afEvent ⟨2024, 2, 3⟩ 150 with id := 5 },
            { afEvent ⟨2025, 2, 3⟩ 150 with id := 6 },
            { afEvent ⟨2026, 2, 3⟩ 150 with id := 7 }] ∧
    (close_card closeFixtureCard closeFixtureEvents ⟨2024, 1, 9⟩).toOption.map
        (fun p => p.1.annual_fee_date) = some none := by
  constructor
  · decide
  · decide

/-- C2 (code bug): the event-CRUD handlers never touch the card row —
adding or deleting an `annual_fee_posted` event leaves
`annual_fee_date` exactly as it was, and no `recompute_due_date`
function exists anywhere in the codebase, although the spec (and the
tests `test_add_af_event_updates_annual_fee_date` and
`test_edit_af_event_to_exact_date_updates_annual_fee_date`) require the
due date to be recomputed after any fee-event mutation. -/
theorem C2_event_crud_never_recomputes_due_date :
    ∀ (card : Card) (events : List CardEvent) (nextId : Nat) (data : CardEventCreate)
      (bonusLinks : List Nat) (eventId : Nat),
      (create_event card events nextId data).1 = card ∧
      (∀ r, delete_event card events bonusLinks eventId = Except.ok r → r.1 = card) := by
  intro card events nextId data bonusLinks eventId
  refine ⟨rfl, ?_⟩
  intro r h
  unfold delete_event at h
  split at h
  · exact Except.noConfusion h
  · cases h
    rfl

/-- C2 witness: adding an exact fee event dated 2026-02-20 to the
fixture card (whose due date is 2024-02-03) leaves the card row — hence
its `annual_fee_date` — unchanged, where the spec requires the due date
to become 2027-02-20; deleting event row 2 likewise returns the card
unchanged. -/
theorem C2_event_crud_never_recomputes_due_date_witness :
    (create_event closeFixtureCard closeFixtureEvents 99
        { event_type := "annual_fee_posted", event_date := ⟨2026, 2, 20⟩,
          metadata_json := some { annual_fee := some 150 } }).1 = closeFixtureCard ∧
    ((closeFixtureCard, closeFixtureEvents.filter (fun e => e.id ≠ 2), ([] : List Nat)) :
        Card × List CardEvent × List Nat).1 = closeFixtureCard :=
  ⟨(C2_event_crud_never_recomputes_due_date closeFixtureCard closeFixtureEvents 99
      { event_type := "annual_fee_posted", event_date := ⟨2026, 2, 20⟩,
        metadata_json := some { annual_fee := some 150 } } [] 2).1,
   (C2_event_crud_never_recomputes_due_date closeFixtureCard closeFixtureEvents 99
      { event_type := "annual_fee_posted", event_date := ⟨2026, 2, 20⟩,
        metadata_json := some { annual_fee := some 150 } } [] 2).2
     (closeFixtureCard, closeFixtureEvents.filter (fun e => e.id ≠ 2), []) rfl⟩


theorem backfillAfEvents_of_fee_not_positive {timeline : Timeline} {today : Date}
    {oldOpen : Option Date} {c3 : Card} {events : List CardEvent}
    (h : feePositive c3.annual_fee = false) :
    backfillAfEvents timeline today oldOpen c3 events = (c3, events) := by
  unfold backfillAfEvents
  split
  · rw [if_neg]
    intro hc
    rw [h] at hc
    exact Bool.noConfusion hc.1
  · rfl

/-- C9 (confirmed): `create_card` forces `annual_fee_date` to null
whenever the resulting `annual_fee` is null or 0 (even when the payload
supplies an `annual_fee_date`), and `update_card` does the same whenever
the payload includes `annual_fee` and sets it to null or 0. -/
theorem C9_zero_or_null_fee_clears_due_date :
    (∀ (tl : Timeline) (today : Date) (data : CardCreate),
      data.annual_fee = none ∨ data.annual_fee = some 0 →
      (create_card tl today data).1.annual_fee_date = none) ∧
    (∀ (tl : Timeline) (today : Date) (card : Card) (events : List CardEvent)
        (u : CardUpdate) (r : Card × List CardEvent),
      u.annual_fee = some none ∨ u.annual_fee = some (some 0) →
      update_card tl today card events u = Except.ok r →
      r.1.annual_fee_date = none) := by
  constructor
  · intro tl today data h
    rcases hod : data.open_date with _ | od <;>
      rcases hfee : data.annual_fee with _ | fee <;>
      rw [hfee] at h <;>
      simp only [create_card, hod, hfee]
    · simp
    · rcases h with h | h
      · exact absurd h (by simp)
      · have hfe : fee = 0 := by injection h
        subst hfe
        simp
    · simp
    · rcases h with h | h
      · exact absurd h (by simp)
      · have hfe : fee = 0 := by injection h
        subst hfe
        simp
  · intro tl today card events u r h heq
    have hfee1 : (applyUpdate card u).annual_fee = none ∨
        (applyUpdate card u).annual_fee = some 0 := by
      rcases h with h | h <;> simp [applyUpdate, h]
    have hsome : u.annual_fee.isSome := by
      rcases h with h | h <;> simp [h]
    have hc2 : (applyFeeClear u (applyUpdate card u)).annual_fee_date = none ∧
        (applyFeeClear u (applyUpdate card u)).annual_fee = (applyUpdate card u).annual_fee := by
      unfold applyFeeClear
      rw [if_pos ⟨hsome, hfee1⟩]
      exact ⟨rfl, rfl⟩
    have hc3 : (applyFeeModifiedFlag u (applyFeeClear u (applyUpdate card u))).annual_fee_date
          = none ∧
        (applyFeeModifiedFlag u (applyFeeClear u (applyUpdate card u))).annual_fee =
          (applyUpdate card u).annual_fee := by
      unfold applyFeeModifiedFlag
      rw [if_pos hsome]
      exact ⟨hc2.1, hc2.2⟩
    have hnotpos : feePositive
        (applyFeeModifiedFlag u (applyFeeClear u (applyUpdate card u))).annual_fee = false := by
      rw [hc3.2]
      rcases hfee1 with h1 | h1 <;> rw [h1] <;> rfl
    unfold update_card at heq
    dsimp only at heq
    split at heq
    · exact Except.noConfusion heq
    · rw [backfillAfEvents_of_fee_not_positive hnotpos] at heq
      cases heq
      exact hc3.1

/-- C9 witness: creating a card with fee 0 and a supplied due date
yields a null due date; updating a card's fee to 0 clears its due date. -/
theorem C9_zero_or_null_fee_clears_due_date_witness :
    (create_card [] ⟨2025, 6, 15⟩
        { open_date := some ⟨2024, 1, 1⟩, annual_fee := some 0,
          annual_fee_date := some ⟨2026, 1, 1⟩ }).1.annual_fee_date = none ∧
    (({ id := 9, annual_fee := some 0, annual_fee_date := none,
        annual_fee_user_modified := true } : Card), ([] : List CardEvent)).1.annual_fee_date
      = none :=
  ⟨C9_zero_or_null_fee_clears_due_date.1 [] ⟨2025, 6, 15⟩
     { open_date := some ⟨2024, 1, 1⟩, annual_fee := some 0,
       annual_fee_date := some ⟨2026, 1, 1⟩ } (Or.inr rfl),
   C9_zero_or_null_fee_clears_due_date.2 [] ⟨2025, 6, 15⟩
     { id := 9, annual_fee := some 95, annual_fee_date := some ⟨2026, 1, 1⟩ } []
     { annual_fee := some (some 0) }
     ({ id := 9, annual_fee := some 0, annual_fee_date := none,
        annual_fee_user_modified := true }, [])
     (Or.inr rfl) rfl⟩

theorem Date.lt_irrefl (a : Date) : ¬ a < a := by
  rw [Date.lt_def]
  omega

/-- Every event the anniversary walk emits is an approximate
`annual_fee_posted` event dated on or after the walk's starting
anniversary. -/
theorem afWalk_mem {tl : Timeline} {fee : Int} {today : Date} :
    ∀ (fuel : Nat) (ann : Date), ann.Valid →
      ∀ e ∈ (afWalk tl fee today fuel ann).1,
        e.event_type = "annual_fee_posted" ∧ e.isApproximate = true ∧ ann ≤ e.event_date := by
  intro fuel
  induction fuel with
  | zero =>
      intro ann hv e he
      rw [afWalk] at he
      cases he
  | succ fuel ih =>
      intro ann hv e he
      rw [afWalk] at he
      by_cases h : ann ≤ today
      · rw [if_pos h] at he
        dsimp only at he
        rcases List.mem_cons.mp he with he | he
        · subst he
          exact ⟨rfl, rfl, Date.le_refl _⟩
        · obtain ⟨h1, h2, h3⟩ := ih (ann.addMonths 12) (Date.valid_addMonths hv 12) e he
          exact ⟨h1, h2,
            Date.le_trans (Date.le_of_lt (Date.lt_addMonths hv (by omega))) h3⟩
      · rw [if_neg h] at he
        cases he

/-- Filtering with `p` after filtering with a weaker `q` equals filtering
with `p` alone. -/
theorem filter_filter_of_imp {α : Type} {p q : α → Bool} (h : ∀ a, p a = true → q a = true) :
    ∀ l : List α, (l.filter q).filter p = l.filter p := by
  intro l
  induction l with
  | nil => rfl
  | cons a t ih =>
      by_cases hq : q a = true
      · rw [List.filter_cons_of_pos hq]
        by_cases hp : p a = true
        · rw [List.filter_cons_of_pos hp, List.filter_cons_of_pos hp, ih]
        · rw [List.filter_cons_of_neg (by simpa using hp),
            List.filter_cons_of_neg (by simpa using hp), ih]
      · rw [List.filter_cons_of_neg (by simpa using hq), ih,
          List.filter_cons_of_neg (by simpa using fun hp => hq (h a hp))]

/-- C3 (amended): for every product change that resets the fee
anniversary and carries an explicit new fee, the fee-posting events dated
at the change date in the result are exactly those already present plus
ONE new event with amount `new_fee` — and that event is engine-owned
approximate (`approximate_date = true`), not exact — when `new_fee > 0`;
when `new_fee = 0` no event dated at the change date is added. -/
theorem C3_product_change_emits_one_approximate_event_at_change_date
    (tl : Timeline) (today : Date) (card : Card) (events : List CardEvent)
    (ntid rv : Option String) (cd : Date) (f : Int) (r : Card × List CardEvent)
    (hcd : cd.Valid)
    (hok : product_change tl today card events ntid rv cd (some f) true = Except.ok r) :
    (0 < f →
      r.2.filter (fun e => e.event_type == "annual_fee_posted" && e.event_date == cd) =
        events.filter (fun e => e.event_type == "annual_fee_posted" && e.event_date == cd)
          ++ [afEvent cd f]) ∧
    (f = 0 →
      r.2.filter (fun e => e.event_type == "annual_fee_posted" && e.event_date == cd) =
        events.filter (fun e => e.event_type == "annual_fee_posted" && e.event_date == cd)) := by
  have hkeep : ∀ e : CardEvent,
      (e.event_type == "annual_fee_posted" && e.event_date == cd) = true →
      (decide (¬ (e.event_type = "annual_fee_posted" ∧ cd < e.event_date ∧
        e.isApproximate = true))) = true := by
    intro e he
    rw [Bool.and_eq_true, beq_iff_eq, beq_iff_eq] at he
    rw [decide_eq_true_eq]
    rintro ⟨-, hlt, -⟩
    rw [he.2] at hlt
    exact Date.lt_irrefl cd hlt
  have hpc : ((fun e : CardEvent =>
      e.event_type == "annual_fee_posted" && e.event_date == cd) (pcEvent cd)) = false := rfl
  have haf : ((fun e : CardEvent =>
      e.event_type == "annual_fee_posted" && e.event_date == cd) (afEvent cd f)) = true := by
    simp [afEvent]
  unfold product_change at hok
  split at hok
  · exact Except.noConfusion hok
  · split at hok
    · exact Except.noConfusion hok
    · split at hok
      · exact Except.noConfusion hok
      · rw [if_pos rfl] at hok
        dsimp only at hok
        cases hok
        constructor
        · intro hf
          have hfp : feePositive (some f) = true := decide_eq_true hf
          rw [if_pos hfp]
          unfold recalculateAfEventsAfterChange
          dsimp only
          rw [if_neg (fun hc => hc hfp)]
          dsimp only
          rw [List.filter_append]
          have hregen : ∀ e ∈ (generatePastAFEvents
              (if ntid = none then [] else tl) ((some f).getD 0) today
              (cd.addMonths 12)).1,
              (e.event_type == "annual_fee_posted" && e.event_date == cd) = false := by
            intro e he
            obtain ⟨-, -, h3⟩ := afWalk_mem _ (cd.addMonths 12)
              (Date.valid_addMonths hcd 12) e he
            have hlt : cd < e.event_date :=
              match Date.lt_addMonths hcd (show 1 ≤ 12 by omega), h3 with
              | h1, h2 => by
                  rw [Date.lt_def] at h1 ⊢
                  rw [Date.le_def] at h2
                  omega
            rw [Bool.and_eq_false_iff]
            right
            rw [beq_eq_false_iff_ne]
            exact fun heq => Date.lt_irrefl cd (heq ▸ hlt)
          have hrnil : List.filter
              (fun e => e.event_type == "annual_fee_posted" && e.event_date == cd)
              (generatePastAFEvents (if ntid = none then [] else tl) ((some f).getD 0) today
                (cd.addMonths 12)).1 = [] :=
            List.filter_eq_nil_iff.mpr (fun e he => by rw [hregen e he]; exact Bool.false_ne_true)
          rw [hrnil, List.append_nil]
          rw [filter_filter_of_imp hkeep]
          simp only [Option.getD]
          rw [List.filter_append, List.filter_append]
          rw [show List.filter
              (fun e : CardEvent => e.event_type == "annual_fee_posted" && e.event_date == cd)
              [pcEvent cd] = [] from by
            rw [List.filter_cons_of_neg (by simpa using hpc)]; rfl]
          rw [show List.filter
              (fun e : CardEvent => e.event_type == "annual_fee_posted" && e.event_date == cd)
              [afEvent cd f] = [afEvent cd f] from by
            rw [List.filter_cons, if_pos haf]; rfl]
          rw [List.append_nil]
        · intro hf
          subst hf
          have hfp : feePositive (some 0) = false := rfl
          rw [if_neg (show ¬ feePositive (some 0) = true by rw [hfp]; simp)]
          unfold recalculateAfEventsAfterChange
          dsimp only
          rw [if_pos (show ¬ feePositive (some 0) = true by rw [hfp]; simp)]
          dsimp only
          rw [filter_filter_of_imp hkeep]
          rw [List.filter_append]
          rw [show List.filter _ [pcEvent cd] = [] from by
            rw [List.filter_cons_of_neg (by simpa using hpc)]; rfl]
          rw [List.append_nil]

/-- C3 counterexample: a product change to a 550 fee (positive) emits no
EXACT fee-posting event at the change date — the single event created
there is marked `approximate_date = true` (engine-owned), contradicting
the claim that the event is exact; the repository's own test asserts
`approximate_date is True` for this event. -/
theorem C3_counterexample_change_date_event_is_approximate :
    (product_change [] ⟨2025, 6, 15⟩ { id := 7, status := "active" } [] none none
        ⟨2025, 1, 15⟩ (some 550) true).toOption.map
      (fun p => p.2.filter (fun e =>
        e.event_type == "annual_fee_posted" && e.event_date == (⟨2025, 1, 15⟩ : Date) &&
        !e.isApproximate)) = some [] ∧
    (product_change [] ⟨2025, 6, 15⟩ { id := 7, status := "active" } [] none none
        ⟨2025, 1, 15⟩ (some 550) true).toOption.map
      (fun p => p.2.filter (fun e =>
        e.event_type == "annual_fee_posted" && e.event_date == (⟨2025, 1, 15⟩ : Date) &&
        e.isApproximate)) = some [afEvent ⟨2025, 1, 15⟩ 550] := by
  constructor
  · decide
  · decide

/-- C3 witness: applying the amended theorem to the concrete product
change above (new fee 550 at 2025-01-15 on a card with no prior events)
shows exactly one approximate fee event at the change date is emitted. -/
theorem C3_product_change_emits_one_approximate_event_witness :
    (({ id := 7, status := "active", annual_fee := some 550,
          annual_fee_date := some ⟨2026, 1, 15⟩ } : Card),
        [pcEvent ⟨2025, 1, 15⟩, afEvent ⟨2025, 1, 15⟩ 550]).2.filter
        (fun e => e.event_type == "annual_fee_posted" &&
          e.event_date == (⟨2025, 1, 15⟩ : Date)) =
      ([] : List CardEvent).filter
        (fun e => e.event_type == "annual_fee_posted" &&
          e.event_date == (⟨2025, 1, 15⟩ : Date)) ++ [afEvent ⟨2025, 1, 15⟩ 550] :=
  (C3_product_change_emits_one_approximate_event_at_change_date [] ⟨2025, 6, 15⟩
      { id := 7, status := "active" } [] none none ⟨2025, 1, 15⟩ 550
      ({ id := 7, status := "active", annual_fee := some 550,
         annual_fee_date := some ⟨2026, 1, 15⟩ },
       [pcEvent ⟨2025, 1, 15⟩, afEvent ⟨2025, 1, 15⟩ 550])
      (by decide) rfl).1 (by decide)

/-- C7 (code bug): the batch resync loop has no exception handling, so a
failure while reconciling the first card propagates out of
`sync_cards_to_templates`, aborting the batch — the second card (whose
reconciliation would succeed, as the last two conjuncts show) is never
processed and nothing is committed.  The claim (and the spec's fail-soft
batch semantics) requires the failure to be caught and the rest of the
batch to proceed. -/
theorem C7_batch_aborts_on_single_card_failure :
    sync_cards_to_templates fixtureCatalog fixtureInitCard fixtureSyncFailingOnThree
        [syncFixtureCard, syncFixtureCardTwo] = Except.error "db failure" ∧
    fixtureSyncFailingOnThree syncFixtureCardTwo emptyBenefitTemplate =
        Except.ok { cards_synced := 1 } ∧
    sync_cards_to_templates fixtureCatalog fixtureInitCard fixtureSyncFailingOnThree
        [syncFixtureCardTwo] = Except.ok { cards_synced := 1 } :=
  ⟨rfl, rfl, rfl⟩

/-! ## Reconciler lemmas -/

/-- Rows outside the pass's dict (predicate false) are passed through
unchanged. -/
theorem benefitPass_mem_of_not_p {p : CardBenefit → Bool}
    {lookup : String → Option (CardBenefit → CardBenefit)} :
    ∀ (l : List CardBenefit) (b : CardBenefit), b ∈ l → p b = false →
      b ∈ (benefitPass p lookup l).1 := by
  intro l
  induction l with
  | nil => intro b hb _; cases hb
  | cons a t ih =>
      intro b hb hp
      rw [benefitPass]
      dsimp only
      rcases List.mem_cons.mp hb with he | ht
      · subst he
        rw [hp, Bool.false_and]
        exact List.mem_cons_self _ _
      · have hmem := ih b ht hp
        split
        · split
          · exact List.mem_cons_of_mem _ hmem
          · exact List.mem_cons_of_mem _ hmem
        · exact List.mem_cons_of_mem _ hmem

/-- The pass never deletes a row: every input row id survives. -/
theorem benefitPass_id {p : CardBenefit → Bool}
    {lookup : String → Option (CardBenefit → CardBenefit)}
    (hlook : ∀ n g, lookup n = some g → ∀ b : CardBenefit, (g b).id = b.id) :
    ∀ (l : List CardBenefit) (b : CardBenefit), b ∈ l →
      ∃ b' ∈ (benefitPass p lookup l).1, b'.id = b.id := by
  intro l
  induction l with
  | nil => intro b hb; cases hb
  | cons a t ih =>
      intro b hb
      rw [benefitPass]
      dsimp only
      rcases List.mem_cons.mp hb with he | ht
      · subst he
        split
        · split
          · rename_i g hg
            exact ⟨g b, List.mem_cons_self _ _, hlook _ g hg b⟩
          · exact ⟨{ b with retired := true }, List.mem_cons_self _ _, rfl⟩
        · exact ⟨b, List.mem_cons_self _ _, rfl⟩
      · obtain ⟨b', hb', hid⟩ := ih b ht
        split
        · split
          · exact ⟨b', List.mem_cons_of_mem _ hb', hid⟩
          · exact ⟨b', List.mem_cons_of_mem _ hb', hid⟩
        · exact ⟨b', List.mem_cons_of_mem _ hb', hid⟩

/-- With names unique among the pass's rows, a dict row whose name has no
template entry comes out retired. -/
theorem benefitPass_retired {p : CardBenefit → Bool}
    {lookup : String → Option (CardBenefit → CardBenefit)} :
    ∀ (l : List CardBenefit) (b : CardBenefit),
      ((l.filter p).map (fun x => x.benefit_name)).Nodup → b ∈ l → p b = true →
      lookup b.benefit_name = none →
      { b with retired := true } ∈ (benefitPass p lookup l).1 := by
  intro l
  induction l with
  | nil => intro b _ hb; cases hb
  | cons a t ih =>
      intro b hnd hb hp hnone
      rw [benefitPass]
      dsimp only
      rcases List.mem_cons.mp hb with he | ht
      · subst he
        have hlast : isLastKey p b t = true := by
          rw [isLastKey, List.all_eq_true]
          intro x hx
          rw [Bool.not_eq_true']
          rw [Bool.and_eq_false_iff]
          by_cases hpx : p x = true
          · right
            rw [beq_eq_false_iff_ne]
            intro heq
            rw [List.filter_cons_of_pos hp, List.map_cons, List.nodup_cons] at hnd
            exact hnd.1 (List.mem_map.mpr ⟨x, List.mem_filter.mpr ⟨hx, hpx⟩, heq⟩)
          · left
            exact Bool.not_eq_true _ ▸ Bool.eq_false_iff.mpr hpx
        rw [hp, hlast, Bool.and_self]
        rw [if_pos rfl, hnone]
        exact List.mem_cons_self _ _
      · have hnd' : ((t.filter p).map (fun x => x.benefit_name)).Nodup := by
          by_cases hpa : p a = true
          · rw [List.filter_cons_of_pos hpa, List.map_cons, List.nodup_cons] at hnd
            exact hnd.2
          · rwa [List.filter_cons_of_neg (by simpa using hpa)] at hnd
        have hmem := ih b hnd' ht hp hnone
        split
        · split
          · exact List.mem_cons_of_mem _ hmem
          · exact List.mem_cons_of_mem _ hmem
        · exact List.mem_cons_of_mem _ hmem

/-- A pass for one benefit type leaves the sublist of rows of a disjoint
predicate untouched. -/
theorem benefitPass_filter_disjoint {p q : CardBenefit → Bool}
    {lookup : String → Option (CardBenefit → CardBenefit)}
    (hpq : ∀ b, p b = true → q b = false)
    (hlookq : ∀ n g, lookup n = some g → ∀ b : CardBenefit, q (g b) = q b)
    (hqret : ∀ b : CardBenefit, q { b with retired := true } = q b) :
    ∀ l : List CardBenefit, ((benefitPass p lookup l).1).filter q = l.filter q := by
  intro l
  induction l with
  | nil => rfl
  | cons a t ih =>
      rw [benefitPass]
      dsimp only
      by_cases hc : (p a && isLastKey p a t) = true
      · rw [if_pos hc]
        have hpa : p a = true := by
          rw [Bool.and_eq_true] at hc
          exact hc.1
        have hqa : q a = false := hpq a hpa
        split
        · rename_i g hg
          rw [List.filter_cons_of_neg (by rw [hlookq _ g hg, hqa]; exact Bool.false_ne_true),
            List.filter_cons_of_neg (by rw [hqa]; exact Bool.false_ne_true)]
          exact ih
        · rw [List.filter_cons_of_neg (by rw [hqret, hqa]; exact Bool.false_ne_true),
            List.filter_cons_of_neg (by rw [hqa]; exact Bool.false_ne_true)]
          exact ih
      · rw [if_neg hc]
        by_cases hqa : q a = true
        · rw [List.filter_cons_of_pos hqa, List.filter_cons_of_pos hqa, ih]
        · rw [List.filter_cons_of_neg (by simpa using hqa),
            List.filter_cons_of_neg (by simpa using hqa), ih]

/-- Bonus-category rows outside the dict (`from_template = false`) are
passed through unchanged. -/
theorem catPass_mem_of_not_ft {tCats : List TemplateBonusCategory} :
    ∀ (l : List CardBonusCategory) (c : CardBonusCategory), c ∈ l →
      c.from_template = false → c ∈ (catPass tCats l).1 := by
  intro l
  induction l with
  | nil => intro c hc _; cases hc
  | cons a t ih =>
      intro c hc hft
      rw [catPass]
      rcases List.mem_cons.mp hc with he | ht
      · subst he
        rw [hft, Bool.false_and]
        exact List.mem_cons_self _ _
      · have hmem := ih c ht hft
        split
        · split
          · exact List.mem_cons_of_mem _ hmem
          · exact hmem
        · exact List.mem_cons_of_mem _ hmem

/-- Every bonus-category row either survives by id or is a
`from_template` row whose category has no template entry. -/
theorem catPass_survive_or_absent {tCats : List TemplateBonusCategory} :
    ∀ (l : List CardBonusCategory) (c : CardBonusCategory), c ∈ l →
      (∃ c' ∈ (catPass tCats l).1, c'.id = c.id) ∨
        (c.from_template = true ∧ findLast (fun t => t.category) tCats c.category = none) := by
  intro l
  induction l with
  | nil => intro c hc; cases hc
  | cons a t ih =>
      intro c hc
      rw [catPass]
      rcases List.mem_cons.mp hc with he | ht
      · subst he
        by_cases hcond : (c.from_template && t.all
            (fun x => !(x.from_template && x.category == c.category))) = true
        · rw [if_pos hcond]
          rcases hfind : findLast (fun t => t.category) tCats c.category with _ | tc
          · refine Or.inr ⟨?_, hfind⟩
            rw [Bool.and_eq_true] at hcond
            exact hcond.1
          · rw [hfind]
            exact Or.inl ⟨_, List.mem_cons_self _ _, rfl⟩
        · rw [if_neg hcond]
          exact Or.inl ⟨c, List.mem_cons_self _ _, rfl⟩
      · rcases ih c ht with ⟨c', hc', hid⟩ | habs
        · left
          split
          · split
            · exact ⟨c', List.mem_cons_of_mem _ hc', hid⟩
            · exact ⟨c', hc', hid⟩
          · exact ⟨c', List.mem_cons_of_mem _ hc', hid⟩
        · exact Or.inr habs

/-- `findLast` finds nothing exactly when the key is absent. -/
theorem findLast_eq_none {α : Type} {key : α → String} {l : List α} {n : String} :
    findLast key l n = none ↔ n ∉ l.map key := by
  rw [findLast, List.find?_eq_none]
  constructor
  · intro h hn
    obtain ⟨x, hx, hkx⟩ := List.mem_map.mp hn
    have hne := h x (List.mem_reverse.mpr hx)
    rw [hkx] at hne
    exact hne (beq_self_eq_true n)
  · intro h x hx hbeq
    exact h (List.mem_map.mpr ⟨x, List.mem_reverse.mp hx, eq_of_beq hbeq⟩)

/-- C8 (amended): during a steady-state sync, (1) non-template benefits
and bonus categories pass through completely unchanged, (2) no benefit
row is ever hard-deleted (every input id survives), (3) a bonus-category
row disappears only if it is template-owned and its category is gone from
the template, and (4) provided benefit names are unique per benefit type
among the dict's rows (as the dict-by-name indexing presumes; with
duplicates only the last row of each name is touched — see the
counterexample), every template-owned benefit with no matching template
entry comes out retired. -/
theorem C8_sync_card_frame_and_retire (today : Date) (card : Card)
    (benefits : List CardBenefit) (cats : List CardBonusCategory) (template : Template) :
    (∀ b ∈ benefits, b.from_template = false →
        b ∈ (sync_card today card benefits cats template).2.1) ∧
    (∀ b ∈ benefits, ∃ b' ∈ (sync_card today card benefits cats template).2.1,
        b'.id = b.id) ∧
    (∀ c ∈ cats, c.from_template = false →
        c ∈ (sync_card today card benefits cats template).2.2.1) ∧
    (∀ c ∈ cats, (∃ c' ∈ (sync_card today card benefits cats template).2.2.1,
        c'.id = c.id) ∨
      (c.from_template = true ∧
        c.category ∉ template.catList.map (fun t => t.category))) ∧
    (((benefits.filter isCreditKeyBenefit).map (fun x => x.benefit_name)).Nodup →
      ∀ b ∈ benefits, isCreditKeyBenefit b = true →
        b.benefit_name ∉ template.creditList.map (fun c => c.name) →
        { b with retired := true } ∈ (sync_card today card benefits cats template).2.1) ∧
    (((benefits.filter isThresholdKeyBenefit).map (fun x => x.benefit_name)).Nodup →
      ∀ b ∈ benefits, isThresholdKeyBenefit b = true →
        b.benefit_name ∉ template.thresholdList.map (fun t => t.name) →
        { b with retired := true } ∈ (sync_card today card benefits cats template).2.1) := by
  have hcq : ∀ b : CardBenefit, isCreditKeyBenefit b = true →
      isThresholdKeyBenefit b = false := by
    intro b hb
    rw [isCreditKeyBenefit, Bool.and_eq_true] at hb
    rw [isThresholdKeyBenefit, eq_of_beq hb.2]
    simp
  have htq : ∀ b : CardBenefit, isThresholdKeyBenefit b = true →
      isCreditKeyBenefit b = false := by
    intro b hb
    rw [isThresholdKeyBenefit, Bool.and_eq_true] at hb
    rw [isCreditKeyBenefit, eq_of_beq hb.2]
    simp
  have hcrId : ∀ n g, ((fun n => (findLast (fun c => c.name) template.creditList n).map
      applyCreditSync) n) = some g → ∀ b : CardBenefit, (g b).id = b.id := by
    intro n g hg b
    obtain ⟨c, -, rfl⟩ := Option.map_eq_some'.mp hg
    rfl
  have hthId : ∀ n g, ((fun n => (findLast (fun t => t.name) template.thresholdList n).map
      applyThresholdSync) n) = some g → ∀ b : CardBenefit, (g b).id = b.id := by
    intro n g hg b
    obtain ⟨c, -, rfl⟩ := Option.map_eq_some'.mp hg
    rfl
  have hcrQ : ∀ n g, ((fun n => (findLast (fun c => c.name) template.creditList n).map
      applyCreditSync) n) = some g →
      ∀ b : CardBenefit, isThresholdKeyBenefit (g b) = isThresholdKeyBenefit b := by
    intro n g hg b
    obtain ⟨c, -, rfl⟩ := Option.map_eq_some'.mp hg
    rfl
  have hdisj : ((benefitPass isCreditKeyBenefit
      (fun n => (findLast (fun c => c.name) template.creditList n).map applyCreditSync)
      benefits).1).filter isThresholdKeyBenefit = benefits.filter isThresholdKeyBenefit :=
    benefitPass_filter_disjoint hcq hcrQ (fun _ => rfl) benefits
  refine ⟨?_, ?_, ?_, ?_, ?_, ?_⟩
  · intro b hb hft
    have h1 : isCreditKeyBenefit b = false := by
      rw [isCreditKeyBenefit, hft, Bool.false_and]
    have h2 : isThresholdKeyBenefit b = false := by
      rw [isThresholdKeyBenefit, hft, Bool.false_and]
    exact List.mem_append_left _ (List.mem_append_left _
      (benefitPass_mem_of_not_p _ b (benefitPass_mem_of_not_p _ b hb h1) h2))
  · intro b hb
    obtain ⟨b', hb', hid'⟩ := benefitPass_id hcrId benefits b hb
    obtain ⟨b'', hb'', hid''⟩ := benefitPass_id hthId _ b' hb'
    exact ⟨b'', List.mem_append_left _ (List.mem_append_left _ hb''), by rw [hid'', hid']⟩
  · intro c hc hft
    exact List.mem_append_left _ (catPass_mem_of_not_ft _ c hc hft)
  · intro c hc
    rcases catPass_survive_or_absent _ c hc with ⟨c', hc', hid⟩ | ⟨hft, hnone⟩
    · exact Or.inl ⟨c', List.mem_append_left _ hc', hid⟩
    · exact Or.inr ⟨hft, findLast_eq_none.mp hnone⟩
  · intro hnd b hb hp hname
    have hnone : (fun n => (findLast (fun c => c.name) template.creditList n).map
        applyCreditSync) b.benefit_name = none := by
      rw [Option.map_eq_none']
      exact findLast_eq_none.mpr hname
    have hret := @benefitPass_retired isCreditKeyBenefit
      (fun n => (findLast (fun c => c.name) template.creditList n).map applyCreditSync)
      benefits b hnd hb hp hnone
    have hq : isThresholdKeyBenefit { b with retired := true } = false := hcq b hp
    exact List.mem_append_left _ (List.mem_append_left _
      (benefitPass_mem_of_not_p _ _ hret hq))
  · intro hnd b hb hp hname
    have hnone : (fun n => (findLast (fun t => t.name) template.thresholdList n).map
        applyThresholdSync) b.benefit_name = none := by
      rw [Option.map_eq_none']
      exact findLast_eq_none.mpr hname
    have hb1 : b ∈ (benefitPass isCreditKeyBenefit
        (fun n => (findLast (fun c => c.name) template.creditList n).map applyCreditSync)
        benefits).1 :=
      benefitPass_mem_of_not_p _ b hb (htq b hp)
    have hnd1 : (((benefitPass isCreditKeyBenefit
        (fun n => (findLast (fun c => c.name) template.creditList n).map applyCreditSync)
        benefits).1.filter isThresholdKeyBenefit).map (fun x => x.benefit_name)).Nodup := by
      rw [hdisj]
      exact hnd
    have hret := @benefitPass_retired isThresholdKeyBenefit
      (fun n => (findLast (fun t => t.name) template.thresholdList n).map applyThresholdSync)
      _ b hnd1 hb1 hp hnone
    exact List.mem_append_left _ (List.mem_append_left _ hret)

/-- C8 counterexample: with two template-owned credit benefits sharing
the name X (rows 1 and 2) and a template that no longer has X, the sync's
dict-by-name indexing touches only the LAST row: row 1 survives the sync
completely unretired (and no retired row with id 1 exists), so the claim
that every template-owned benefit with no matching template entry is
marked retired is false as stated. -/
theorem C8_counterexample_duplicate_names_skip_retirement :
    dupBenefitOne ∈ (sync_card ⟨2025, 1, 1⟩ syncFixtureCard
        [dupBenefitOne, dupBenefitTwo] [] emptyBenefitTemplate).2.1 ∧
    dupBenefitOne.from_template = true ∧
    dupBenefitOne.benefit_name ∉ emptyBenefitTemplate.creditList.map (fun c => c.name) ∧
    dupBenefitOne.retired = false ∧
    ((sync_card ⟨2025, 1, 1⟩ syncFixtureCard
        [dupBenefitOne, dupBenefitTwo] [] emptyBenefitTemplate).2.1.all
      (fun b => !(b.id == 1 && b.retired))) = true := by
  refine ⟨?_, ?_, ?_, ?_, ?_⟩ <;> decide

/-- C8 witness: with a single (hence uniquely named) template-owned
credit benefit X and a template without X, the sync retires row 1, keeps
every row, and leaves nothing user-owned touched. -/
theorem C8_sync_card_frame_and_retire_witness :
    { dupBenefitOne with retired := true } ∈
      (sync_card ⟨2025, 1, 1⟩ syncFixtureCard [dupBenefitOne] []
        emptyBenefitTemplate).2.1 :=
  (C8_sync_card_frame_and_retire ⟨2025, 1, 1⟩ syncFixtureCard [dupBenefitOne] []
      emptyBenefitTemplate).2.2.2.2.1
    (by decide) dupBenefitOne (by decide) (by decide) (by decide)
